import Mathlib

/-!
Verification development for the `age-of-scribes-mgen` world-generation
pipeline: a shallow embedding of the Python sources
(`biome_types.py`, `biome_generator.py`, `terrain_mapper.py`,
`terrain_renderer.py`, `biome_rules.py`, `region_generator.py`)
together with theorems settling the spec claims.

Modelling conventions:
* Python `float` scalars (noise values, biome weights, random draws) are
  modelled as `ℚ`; the comparisons and arithmetic the code performs are
  mirrored exactly on `ℚ`.
* The trigonometric kernels `np.sin` / `np.cos` are abstract parameters
  `(s c : ℚ → ℚ)`; no theorem depends on more than `s 0 = 0`, which holds
  for the real sine.
* The global seeded PRNG (`random.seed` / `random.uniform`) is modelled as
  an explicit draw stream `ℕ → ℚ` giving the value of the `i`-th call to
  `random.uniform`; a run of the pipeline is parameterised by the stream
  (itself a function of the seed), so determinism and budget claims can be
  stated over streams.
* Fallible operations (numpy reductions over empty arrays, dict `KeyError`)
  are modelled with `Except` / `Option`.
-/

/-! ## biome_types.py -/

def BiomeType.OCEAN : String := "ocean"

def BiomeType.DESERT : String := "desert"

def BiomeType.SWAMP : String := "swamp"

def BiomeType.GRASSLAND : String := "grassland"

def BiomeType.FOREST : String := "forest"

def BiomeType.STEPPE : String := "steppe"

def BiomeType.MOUNTAIN : String := "mountain"

def BiomeType.SNOW : String := "snow"

/-- The eight biome labels, in the enumeration order of `biome_types.py`. -/
def biomeLabels : List String :=
  [BiomeType.OCEAN, BiomeType.DESERT, BiomeType.SWAMP, BiomeType.GRASSLAND,
   BiomeType.FOREST, BiomeType.STEPPE, BiomeType.MOUNTAIN, BiomeType.SNOW]

/-- `BiomeType.get_color`: a plain dict lookup, `color_map[biome_type]`.
A missing key raises `KeyError`, modelled as `none`. -/
def BiomeType.getColor (biome_type : String) : Option (ℕ × ℕ × ℕ) :=
  ([(BiomeType.OCEAN, (0, 0, 139)),
    (BiomeType.DESERT, (238, 214, 175)),
    (BiomeType.SWAMP, (0, 100, 0)),
    (BiomeType.GRASSLAND, (34, 139, 34)),
    (BiomeType.FOREST, (0, 100, 0)),
    (BiomeType.STEPPE, (152, 251, 152)),
    (BiomeType.MOUNTAIN, (139, 137, 137)),
    (BiomeType.SNOW, (255, 250, 250))] : List (String × ℕ × ℕ × ℕ)).lookup biome_type

/-! ## tile_types.py -/

def TileType.DEEP_WATER : String := "deep_water"

def TileType.SHALLOW_WATER : String := "shallow_water"

def TileType.SAND : String := "sand"

def TileType.GRASS : String := "grass"

def TileType.FOREST : String := "forest"

def TileType.MOUNTAIN : String := "mountain"

/-! ## terrain_mapper.py -/

/-- The `biome_to_terrain` table built in `TerrainMapper.__init__`. -/
def TerrainMapper.biomeToTerrain : List (String × String) :=
  [(BiomeType.OCEAN, TileType.DEEP_WATER),
   (BiomeType.SWAMP, TileType.SHALLOW_WATER),
   (BiomeType.DESERT, TileType.SAND),
   (BiomeType.FOREST, TileType.FOREST),
   (BiomeType.GRASSLAND, TileType.GRASS),
   (BiomeType.STEPPE, TileType.GRASS),
   (BiomeType.MOUNTAIN, TileType.MOUNTAIN),
   (BiomeType.SNOW, TileType.MOUNTAIN)]

/-- `TerrainMapper.get_terrain_for_biome`:
`self.biome_to_terrain.get(biome, TileType.GRASS.value)`. -/
def TerrainMapper.getTerrainForBiome (biome : String) : String :=
  (TerrainMapper.biomeToTerrain.lookup biome).getD TileType.GRASS

/-- `TerrainMapper.translate_biomes`: per-cell table lookup with the
grass fallback. -/
def TerrainMapper.translateBiomes (biome_map : List (List String)) : List (List String) :=
  biome_map.map (fun row => row.map TerrainMapper.getTerrainForBiome)

/-! ## terrain_renderer.py -/

/-- The `terrain_colors` table of `TerrainRenderer.__init__`. -/
def TerrainRenderer.terrainColors : List (String × ℕ × ℕ × ℕ) :=
  [("deep_water", (0, 0, 128)),
   ("shallow_water", (0, 128, 192)),
   ("sand", (237, 201, 175)),
   ("grass", (34, 139, 34)),
   ("forest", (0, 100, 0)),
   ("dirt", (139, 69, 19)),
   ("mountain", (169, 169, 169)),
   ("snow", (255, 250, 250))]

/-- `TerrainRenderer.render` colour lookup:
`self.terrain_colors.get(terrain_map[y][x], (255, 0, 255))`. -/
def TerrainRenderer.colorOf (tile : String) : ℕ × ℕ × ℕ :=
  (TerrainRenderer.terrainColors.lookup tile).getD (255, 0, 255)

/-! ## biome_generator.py: the classifier `_get_biome` -/

/-- `BiomeGenerator._get_biome`, translated clause for clause. -/
def BiomeGenerator.getBiome (elevation moisture : ℚ) : String :=
  if elevation < 0.2 then BiomeType.OCEAN
  else if elevation > 0.8 then
    (if moisture > 0.5 then BiomeType.SNOW else BiomeType.MOUNTAIN)
  else if elevation > 0.5 then
    (if moisture > 0.7 then BiomeType.FOREST
     else if moisture > 0.4 then BiomeType.GRASSLAND
     else BiomeType.STEPPE)
  else
    (if moisture > 0.7 then BiomeType.SWAMP
     else if moisture > 0.4 then BiomeType.GRASSLAND
     else BiomeType.DESERT)

/-- `BiomeGenerator.render_to_image` colour pass: every cell of the biome
map goes through the partial lookup `BiomeType.get_color`; the whole pass
succeeds only if every lookup does. -/
def BiomeGenerator.renderColors (biome_map : List (List String)) :
    Option (List (List (ℕ × ℕ × ℕ))) :=
  biome_map.traverse (fun row => row.traverse BiomeType.getColor)

/-! ### C6: classifier totality and decision order -/

/-- **C6**: for every `(elevation, moisture)` pair (in particular every pair
in `[0,1] × [0,1]`), `_get_biome` returns exactly one of the 8 biome
labels, and its result follows the documented first-match decision order:
`elevation < 0.2` gives Ocean regardless of moisture; otherwise
`elevation > 0.8` gives Snow if `moisture > 0.5` else Mountain; otherwise
`elevation > 0.5` gives Forest if `moisture > 0.7`, else Grassland if
`moisture > 0.4`, else Steppe; otherwise Swamp if `moisture > 0.7`, else
Grassland if `moisture > 0.4`, else Desert. -/
theorem getBiome_total_and_decision_order (elevation moisture : ℚ) :
    BiomeGenerator.getBiome elevation moisture ∈ biomeLabels ∧
    (elevation < 0.2 →
      BiomeGenerator.getBiome elevation moisture = "ocean") ∧
    (¬ elevation < 0.2 → elevation > 0.8 →
      BiomeGenerator.getBiome elevation moisture =
        (if moisture > 0.5 then "snow" else "mountain")) ∧
    (¬ elevation < 0.2 → ¬ elevation > 0.8 → elevation > 0.5 →
      BiomeGenerator.getBiome elevation moisture =
        (if moisture > 0.7 then "forest"
         else if moisture > 0.4 then "grassland" else "steppe")) ∧
    (¬ elevation < 0.2 → ¬ elevation > 0.8 → ¬ elevation > 0.5 →
      BiomeGenerator.getBiome elevation moisture =
        (if moisture > 0.7 then "swamp"
         else if moisture > 0.4 then "grassland" else "desert")) := by
  unfold BiomeGenerator.getBiome biomeLabels
  unfold BiomeType.OCEAN BiomeType.DESERT BiomeType.SWAMP BiomeType.GRASSLAND
    BiomeType.FOREST BiomeType.STEPPE BiomeType.MOUNTAIN BiomeType.SNOW
  refine ⟨?_, ?_, ?_, ?_, ?_⟩ <;> split_ifs <;> simp_all

/-! ### C10: `BiomeType.get_color` is partial, unlike the defensive lookups -/

/-- Helper: the colour lookup succeeds on each of the 8 labels. -/
theorem getColor_label_isSome : ∀ b ∈ biomeLabels, (BiomeType.getColor b).isSome = true := by
  decide

/-- **C10**: the biome colour lookup `BiomeType.get_color` is partial — on
any string outside the 8 biome labels it raises `KeyError` (modelled
`none`) instead of a defensive default, unlike the terrain renderer's
magenta fallback and the terrain mapper's Grass fallback; on the 8 labels
it is total, and hence `render_to_image`'s colour pass succeeds on every
biome grid whose cells are all labels. -/
theorem getColor_partial_unlike_defensive_lookups :
    (∀ b ∈ biomeLabels, (BiomeType.getColor b).isSome = true) ∧
    BiomeType.getColor "pond" = none ∧
    TerrainRenderer.colorOf "pond" = (255, 0, 255) ∧
    TerrainMapper.getTerrainForBiome "pond" = "grass" ∧
    (∀ biome_map : List (List String),
      (∀ row ∈ biome_map, ∀ b ∈ row, b ∈ biomeLabels) →
      (BiomeGenerator.renderColors biome_map).isSome = true) := by
  refine ⟨by decide, rfl, rfl, rfl, ?_⟩
  intro biome_map h
  unfold BiomeGenerator.renderColors
  induction biome_map with
  | nil => rfl
  | cons row rest ih =>
    have hrow : (row.traverse BiomeType.getColor).isSome = true := by
      have hr := h row (by simp)
      clear h ih
      induction row with
      | nil => rfl
      | cons b bs ihb =>
        have hb : (BiomeType.getColor b).isSome = true :=
          getColor_label_isSome b (hr b (by simp))
        have hbs := ihb (fun x hx => hr x (by simp [hx]))
        simp only [List.traverse]
        obtain ⟨c, hc⟩ := Option.isSome_iff_exists.mp hb
        obtain ⟨cs, hcs⟩ := Option.isSome_iff_exists.mp hbs
        simp [hc, hcs, Seq.seq]
    have hrest := ih (fun r hrr => h r (by simp [hrr]))
    simp only [List.traverse]
    obtain ⟨c, hc⟩ := Option.isSome_iff_exists.mp hrow
    obtain ⟨cs, hcs⟩ := Option.isSome_iff_exists.mp hrest
    simp [hc, hcs, Seq.seq]

/-- Witness for C10 at a concrete grid. -/
theorem getColor_partial_witness :
    (BiomeGenerator.renderColors [["ocean", "snow"], ["desert"]]).isSome = true :=
  getColor_partial_unlike_defensive_lookups.2.2.2.2 [["ocean", "snow"], ["desert"]]
    (by decide)

/-! ## biome_generator.py: noise synthesis and `generate` -/

/-- Failure conditions observable in the pipeline. `negativeSamples` and
`emptyReduction` are the numpy faults actually reachable
(`np.linspace` with a negative count, `.min()` of an empty array);
`invalidParameter` is the fail-fast condition the spec describes, which
no code path produces. -/
inductive GenErr where
  | negativeSamples
  | emptyReduction
  | invalidParameter
deriving DecidableEq

/-- `np.linspace(0, stop, n)`: errors on negative `n`, returns `[0]` for
`n = 1`, and otherwise the endpoint-inclusive ramp `i * stop / (n - 1)`. -/
def linspace0 (stop : ℚ) (n : Int) : Except GenErr (List ℚ) :=
  if n < 0 then Except.error GenErr.negativeSamples
  else if n = 1 then Except.ok [0]
  else Except.ok ((List.range n.toNat).map (fun (i : ℕ) => (i : ℚ) * stop / ((n : ℚ) - 1)))

/-- The per-cell octave accumulation of `_generate_noise_map`:
`noise += np.sin(X * 2**k) * np.cos(Y * 2**k) / 2**k` for `k < octaves`,
starting from `np.zeros`. -/
def octaveSum (s c : ℚ → ℚ) (xv yv : ℚ) (octaves : ℕ) : ℚ :=
  (List.range octaves).foldl
    (fun acc k => acc + s (xv * 2 ^ k) * c (yv * 2 ^ k) / 2 ^ k) 0

/-- The accumulated (pre-normalisation) noise field of
`_generate_noise_map`. -/
def accRows (s c : ℚ → ℚ) (width height : Int) (scale : ℚ) (octaves : ℕ) :
    Except GenErr (List (List ℚ)) := do
  let xs ← linspace0 scale width
  let ys ← linspace0 scale height
  Except.ok (ys.map (fun yv => xs.map (fun xv => octaveSum s c xv yv octaves)))

/-- `BiomeGenerator._generate_noise_map`: octave accumulation followed by
the min-max normalisation `(noise - noise.min()) / (noise.max() - noise.min())`.
`noise.min()` on an empty array is the numpy `emptyReduction` fault. There
is no flat-field guard in the code; when `max = min` the division is `0/0`
(`ℚ` division by zero, numpy NaN). -/
def BiomeGenerator.generateNoiseMap (s c : ℚ → ℚ) (width height : Int)
    (scale : ℚ) (octaves : ℕ) : Except GenErr (List (List ℚ)) := do
  let rows ← accRows s c width height scale octaves
  match rows.flatten with
  | [] => Except.error GenErr.emptyReduction
  | v :: vs =>
    let mn := vs.foldl min v
    let mx := vs.foldl max v
    Except.ok (rows.map (fun row => row.map (fun u => (u - mn) / (mx - mn))))

/-- The state stored by `BiomeGenerator.__init__`: width, height and seed.
The constructor performs no dimension validation whatsoever; its only other
effect is seeding the global RNGs (modelled by the draw streams elsewhere). -/
structure BGState where
  width : Int
  height : Int
  seed : ℕ
deriving DecidableEq

/-- `BiomeGenerator.__init__` with an explicit seed. -/
def BiomeGenerator.init (width height : Int) (seed : ℕ) : BGState :=
  ⟨width, height, seed⟩

/-- `BiomeGenerator.generate`: elevation noise (scale 4.0, 4 octaves),
moisture noise (scale 3.0, 3 octaves), per-cell classification, then
biome-to-terrain translation. -/
def BiomeGenerator.generate (s c : ℚ → ℚ) (g : BGState) :
    Except GenErr (List (List String) × List (List String)) := do
  let elevation ← BiomeGenerator.generateNoiseMap s c g.width g.height 4.0 4
  let moisture ← BiomeGenerator.generateNoiseMap s c g.width g.height 3.0 3
  let biome_map := (List.range g.height.toNat).map (fun y =>
    (List.range g.width.toNat).map (fun x =>
      BiomeGenerator.getBiome ((elevation.getD y []).getD x 0)
        ((moisture.getD y []).getD x 0)))
  Except.ok (biome_map, TerrainMapper.translateBiomes biome_map)

/-! ### Helper lemmas about the noise field -/

theorem linspace0_ok_length (stop : ℚ) (n : Int) (hn : 0 ≤ n) :
    ∃ l, linspace0 stop n = Except.ok l ∧ l.length = n.toNat := by
  unfold linspace0
  rw [if_neg (by omega)]
  by_cases h1 : n = 1
  · subst h1; simp
  · rw [if_neg h1]
    refine ⟨(List.range n.toNat).map (fun (i : ℕ) => (i : ℚ) * stop / ((n : ℚ) - 1)), rfl, ?_⟩
    rw [List.length_map, List.length_range]

theorem foldl_const_acc {α β : Type} (f : α → β → α) (hf : ∀ a b, f a b = a) :
    ∀ (l : List β) (a : α), l.foldl f a = a := by
  intro l
  induction l with
  | nil => intro a; rfl
  | cons b bs ih =>
    intro a
    rw [List.foldl_cons, hf, ih]

theorem octaveSum_xzero (s c : ℚ → ℚ) (yv : ℚ) (octaves : ℕ) (hs : s 0 = 0) :
    octaveSum s c 0 yv octaves = 0 := by
  unfold octaveSum
  exact foldl_const_acc _
    (fun a k => by rw [zero_mul, hs, zero_mul, zero_div, add_zero]) _ 0

theorem map_const_replicate {α β : Type} (l : List α) (b : β) :
    l.map (fun _ => b) = List.replicate l.length b := by
  induction l with
  | nil => rfl
  | cons a as ih => simp [List.replicate, ih]

theorem flatten_replicate_singleton {α : Type} (k : ℕ) (b : α) :
    (List.replicate k [b]).flatten = List.replicate k b := by
  induction k with
  | zero => rfl
  | succ n ih => simp [List.replicate, ih]

theorem foldl_min_replicate_zero (k : ℕ) :
    (List.replicate k (0 : ℚ)).foldl min 0 = 0 := by
  induction k with
  | zero => rfl
  | succ n ih => simpa [List.replicate] using ih

theorem foldl_max_replicate_zero (k : ℕ) :
    (List.replicate k (0 : ℚ)).foldl max 0 = 0 := by
  induction k with
  | zero => rfl
  | succ n ih => simpa [List.replicate] using ih

/-! ### C3: the degenerate flat field is NOT mapped to a uniform 0.5 grid -/

/-- **C3** (supporting theorem for a code bug): with `width = 1` the
accumulated noise field is identically `0` (every term is
`sin(0 * 2^k) * cos(...) / 2^k = 0`), so `noise.max() - noise.min() = 0`
and the normalisation `(v - min) / (max - min)` divides by zero. The code
has no flat-field guard: under the embedding's total `ℚ` division the
returned grid is uniformly `0` (numpy returns a NaN grid), not the uniform
`0.5` grid the claim requires, for any kernel `s` with `s 0 = 0` (such as
the real sine). -/
theorem exceptBind_ok {ε α β : Type} (a : α) (f : α → Except ε β) :
    (Except.ok (ε := ε) a >>= f) = f a := rfl

theorem noiseMap_flat_field_no_half_guard (s c : ℚ → ℚ) (height : Int)
    (scale : ℚ) (octaves : ℕ) (hs : s 0 = 0) (hh : 0 < height) :
    accRows s c 1 height scale octaves =
      Except.ok (List.replicate height.toNat [(0 : ℚ)]) ∧
    BiomeGenerator.generateNoiseMap s c 1 height scale octaves =
      Except.ok (List.replicate height.toNat [(0 : ℚ)]) ∧
    ¬ BiomeGenerator.generateNoiseMap s c 1 height scale octaves =
        Except.ok (List.replicate height.toNat [(1 / 2 : ℚ)]) := by
  obtain ⟨ys, hys, hyslen⟩ := linspace0_ok_length scale height (by omega)
  have hxs : linspace0 scale 1 = Except.ok [0] := by unfold linspace0; norm_num
  have hacc : accRows s c 1 height scale octaves =
      Except.ok (List.replicate height.toNat [(0 : ℚ)]) := by
    unfold accRows
    rw [hxs, hys]
    simp only [exceptBind_ok, List.map_cons, List.map_nil]
    have : ys.map (fun yv => [octaveSum s c 0 yv octaves]) =
        ys.map (fun _ => ([0] : List ℚ)) := by
      apply List.map_congr_left
      intro yv _
      rw [octaveSum_xzero s c yv octaves hs]
    rw [this, map_const_replicate, hyslen]
  have hk : 0 < height.toNat := by omega
  have hflat : (List.replicate height.toNat [(0 : ℚ)]).flatten =
      0 :: List.replicate (height.toNat - 1) (0 : ℚ) := by
    rw [flatten_replicate_singleton]
    cases hN : height.toNat with
    | zero => omega
    | succ m => simp [List.replicate]
  have hmain : BiomeGenerator.generateNoiseMap s c 1 height scale octaves =
      Except.ok (List.replicate height.toNat [(0 : ℚ)]) := by
    unfold BiomeGenerator.generateNoiseMap
    rw [hacc]
    simp only [exceptBind_ok]
    rw [hflat]
    simp only [foldl_min_replicate_zero, foldl_max_replicate_zero]
    have : (List.replicate height.toNat [(0 : ℚ)]).map
        (fun row => row.map (fun u => (u - 0) / (0 - 0))) =
        List.replicate height.toNat [(0 : ℚ)] := by
      rw [List.map_replicate]
      norm_num
    rw [this]
  refine ⟨hacc, hmain, ?_⟩
  intro hcontra
  rw [hmain] at hcontra
  have heq := Except.ok.inj hcontra
  cases hN : height.toNat with
  | zero => omega
  | succ m =>
    rw [hN] at heq
    have hcell : ((List.replicate (m + 1) [(0 : ℚ)]).getD 0 []).getD 0 37 =
        ((List.replicate (m + 1) [(1 / 2 : ℚ)]).getD 0 []).getD 0 37 := by rw [heq]
    simp only [List.replicate_succ, List.getD_cons_zero] at hcell
    norm_num at hcell

/-- Witness for C3: concrete kernels (`s = id`, which satisfies `s 0 = 0`,
like the real sine) and `height = 3`. -/
theorem noiseMap_flat_field_witness :
    BiomeGenerator.generateNoiseMap (fun x => x) (fun x => x) 1 3 4 4 =
      Except.ok (List.replicate 3 [(0 : ℚ)]) :=
  (noiseMap_flat_field_no_half_guard (fun x => x) (fun x => x) 3 4 4 rfl
    (by norm_num)).2.1

/-! ### C4: no fail-fast dimension validation exists -/

/-- **C4 counterexample**: with `width = 0` (and `height = 5`) the pipeline
does not fail fast with an `InvalidParameter` condition: `__init__` accepts
the dimensions unchecked, grids are set up, and the failure that finally
surfaces is numpy's empty-array reduction (`noise.min()` of a 0-column
field), a different error raised well after grid allocation. -/
theorem generate_zero_width_counterexample :
    BiomeGenerator.init 0 5 42 = ⟨0, 5, 42⟩ ∧
    BiomeGenerator.generate (fun x => x) (fun x => x) (BiomeGenerator.init 0 5 42) =
      Except.error GenErr.emptyReduction ∧
    GenErr.emptyReduction ≠ GenErr.invalidParameter := by
  refine ⟨rfl, ?_, by decide⟩
  rfl

/-- **C4 amended**: the generator performs no dimension validation at all.
For `width ≤ 0` or `height ≤ 0` the run fails, but inside noise
generation (a negative-sample or empty-reduction numpy fault, never the
spec's `InvalidParameter` fail-fast condition); for positive dimensions no
error is raised at all. -/
theorem generate_dimension_behaviour (s c : ℚ → ℚ) (width height : Int) (seed : ℕ) :
    (width ≤ 0 ∨ height ≤ 0 →
      ∃ e, BiomeGenerator.generate s c (BiomeGenerator.init width height seed) =
          Except.error e ∧ e ≠ GenErr.invalidParameter) ∧
    (0 < width → 0 < height →
      ∃ biome_map terrain_map,
        BiomeGenerator.generate s c (BiomeGenerator.init width height seed) =
          Except.ok (biome_map, terrain_map)) := by
  have hnoise : ∀ (scale : ℚ) (octaves : ℕ),
      (width ≤ 0 ∨ height ≤ 0 →
        ∃ e, BiomeGenerator.generateNoiseMap s c width height scale octaves =
            Except.error e ∧ e ≠ GenErr.invalidParameter) ∧
      (0 < width → 0 < height →
        ∃ g, BiomeGenerator.generateNoiseMap s c width height scale octaves =
            Except.ok g) := by
    intro scale octaves
    constructor
    · intro hbad
      by_cases hwneg : width < 0
      · refine ⟨GenErr.negativeSamples, ?_, by decide⟩
        unfold BiomeGenerator.generateNoiseMap accRows linspace0
        rw [if_pos hwneg]
        rfl
      · obtain ⟨xs, hxs, hxslen⟩ := linspace0_ok_length scale width (by omega)
        by_cases hhneg : height < 0
        · refine ⟨GenErr.negativeSamples, ?_, by decide⟩
          unfold BiomeGenerator.generateNoiseMap accRows
          rw [hxs]
          simp only [exceptBind_ok]
          unfold linspace0
          rw [if_pos hhneg]
          rfl
        · -- width = 0 (height arbitrary nonnegative) or height = 0:
          -- the flattened field is empty and `noise.min()` faults.
          obtain ⟨ys, hys, hyslen⟩ := linspace0_ok_length scale height (by omega)
          refine ⟨GenErr.emptyReduction, ?_, by decide⟩
          unfold BiomeGenerator.generateNoiseMap accRows
          rw [hxs, hys]
          simp only [exceptBind_ok]
          have hempty : (ys.map (fun yv => xs.map (fun xv =>
              octaveSum s c xv yv octaves))).flatten = [] := by
            rcases hbad with hw | hh
            · have : xs = [] := by
                have : xs.length = 0 := by omega
                exact List.length_eq_zero.mp this
              subst this
              simp
            · have : ys = [] := by
                have : ys.length = 0 := by omega
                exact List.length_eq_zero.mp this
              subst this
              simp
          rw [hempty]
    · intro hw hh
      obtain ⟨xs, hxs, hxslen⟩ := linspace0_ok_length scale width (by omega)
      obtain ⟨ys, hys, hyslen⟩ := linspace0_ok_length scale height (by omega)
      unfold BiomeGenerator.generateNoiseMap accRows
      rw [hxs, hys]
      simp only [exceptBind_ok]
      obtain ⟨yv, ys', hys'⟩ : ∃ yv ys', ys = yv :: ys' := by
        cases ys with
        | nil => simp at hyslen; omega
        | cons a l => exact ⟨a, l, rfl⟩
      obtain ⟨xv, xs', hxs'⟩ : ∃ xv xs', xs = xv :: xs' := by
        cases xs with
        | nil => simp at hxslen; omega
        | cons a l => exact ⟨a, l, rfl⟩
      subst hys' hxs'
      exact ⟨_, rfl⟩
  constructor
  · intro hbad
    obtain ⟨e, he, hne⟩ := (hnoise 4.0 4).1 hbad
    refine ⟨e, ?_, hne⟩
    unfold BiomeGenerator.generate
    simp only [BiomeGenerator.init] at he ⊢
    rw [he]
    rfl
  · intro hw hh
    obtain ⟨elev, helev⟩ := (hnoise 4.0 4).2 hw hh
    obtain ⟨moist, hmoist⟩ := (hnoise 3.0 3).2 hw hh
    have hgen : ∃ p, BiomeGenerator.generate s c (BiomeGenerator.init width height seed) =
        Except.ok p := by
      unfold BiomeGenerator.generate
      simp only [BiomeGenerator.init] at helev hmoist ⊢
      rw [helev]
      simp only [exceptBind_ok]
      rw [hmoist]
      simp only [exceptBind_ok]
      exact ⟨_, rfl⟩
    obtain ⟨⟨bm, tm⟩, hp⟩ := hgen
    exact ⟨bm, tm, hp⟩

/-- Witness for C4's amended theorem at `width = height = 2`. -/
theorem generate_dimension_behaviour_witness :
    ∃ biome_map terrain_map,
      BiomeGenerator.generate (fun x => x) (fun x => x) (BiomeGenerator.init 2 2 7) =
        Except.ok (biome_map, terrain_map) :=
  (generate_dimension_behaviour (fun x => x) (fun x => x) 2 2 7).2
    (by norm_num) (by norm_num)

/-! ## region_generator.py: seed selection -/

/-- `RegionGenerator._manhattan_distance`: `abs(x1 - x2) + abs(y1 - y2)`. -/
def RegionGenerator.manhattanDistance (x1 y1 x2 y2 : Int) : ℕ :=
  (x1 - x2).natAbs + (y1 - y2).natAbs

/-- Manhattan distance between two grid cells. -/
def manhattan (p q : ℕ × ℕ) : ℕ :=
  RegionGenerator.manhattanDistance p.1 p.2 q.1 q.2

theorem manhattan_comm (p q : ℕ × ℕ) : manhattan p q = manhattan q p := by
  unfold manhattan RegionGenerator.manhattanDistance
  omega

/-- The `biome_weights` table of `RegionGenerator.__init__`. -/
def RegionGenerator.biomeWeights : List (String × ℚ) :=
  [("ocean", 0.1), ("swamp", 0.4), ("desert", 0.6), ("grassland", 1.0),
   ("forest", 1.2), ("mountain", 0.2), ("snow", 0.4)]

/-- `RegionGenerator._get_biome_weight`: table lookup, default weight 0.5
for unknown biomes. -/
def RegionGenerator.getBiomeWeight (biome : String) : ℚ :=
  (RegionGenerator.biomeWeights.lookup biome).getD 0.5

/-- `biome_map[y][x]` access. -/
def bmAt (bm : List (List String)) (x y : ℕ) : String :=
  (bm.getD y []).getD x ""

/-- The `valid_positions` pool of `_generate_seed_points`: every cell with
its biome weight, built row-major. -/
def RegionGenerator.validPositions (width height : ℕ) (bm : List (List String)) :
    List (ℕ × ℕ × ℚ) :=
  (List.range height).flatMap (fun y =>
    (List.range width).map (fun x => (x, y, RegionGenerator.getBiomeWeight (bmAt bm x y))))

/-- One insertion step of a stable descending sort on the weight
component: the new element goes after every earlier element of greater or
equal weight. -/
def insertByWeightDesc (p : ℕ × ℕ × ℚ) : List (ℕ × ℕ × ℚ) → List (ℕ × ℕ × ℚ)
  | [] => [p]
  | q :: qs => if p.2.2 > q.2.2 then p :: q :: qs else q :: insertByWeightDesc p qs

/-- `valid_positions.sort(key=lambda x: x[2], reverse=True)`: Python's
`list.sort` is stable; modelled by a stable insertion sort (equal-weight
elements keep their original relative order, descending by weight). -/
def sortByWeightDesc (l : List (ℕ × ℕ × ℚ)) : List (ℕ × ℕ × ℚ) :=
  l.foldl (fun acc p => insertByWeightDesc p acc) []

/-- The inner `for x, y, weight in valid_positions` scan of
`_generate_seed_points`: accumulate `current_weight` and stop at the first
position whose cumulative weight reaches the draw `r` (the loop `break`s
there whether or not the position is accepted). -/
def scanSelect : List (ℕ × ℕ × ℚ) → ℚ → ℚ → Option (ℕ × ℕ)
  | [], _, _ => none
  | p :: rest, cum, r =>
    let cum2 := cum + p.2.2
    if cum2 ≥ r then some (p.1, p.2.1) else scanSelect rest cum2 r

/-- One iteration of the seed-selection `while` loop, given the draw `r`
(`random.uniform(0, total_weight)`): select a position by cumulative
weight, reject it if it is within `min_distance` of an accepted seed,
otherwise accept it and filter the pool. -/
def seedIteration (minDist : ℕ) (seeds : List (ℕ × ℕ)) (pool : List (ℕ × ℕ × ℚ))
    (r : ℚ) : List (ℕ × ℕ) × List (ℕ × ℕ × ℚ) :=
  match scanSelect pool 0 r with
  | none => (seeds, pool)
  | some (x, y) =>
    if seeds.any (fun sp => decide (manhattan (x, y) sp < minDist)) then (seeds, pool)
    else (seeds ++ [(x, y)],
      pool.filter (fun p => decide (manhattan (p.1, p.2.1) (x, y) ≥ minDist)))

/-- The seed-selection `while` loop:
`while len(seeds) < num_regions and attempts < max_attempts`. The fuel is
the number of remaining attempts (`max_attempts - attempts`); `attempts`
indexes the draw stream. -/
def seedLoop (stream : ℕ → ℚ) (minDist num : ℕ) :
    ℕ → ℕ → List (ℕ × ℕ) → List (ℕ × ℕ × ℚ) → List (ℕ × ℕ)
  | 0, _, seeds, _ => seeds
  | fuel + 1, attempts, seeds, pool =>
    if seeds.length < num then
      let st := seedIteration minDist seeds pool (stream attempts)
      seedLoop stream minDist num fuel (attempts + 1) st.1 st.2
    else seeds

/-- `RegionGenerator._generate_seed_points`. `min_distance` is
`int(np.sqrt((width * height) / (num_regions * 2)))`, i.e. the floor of
the square root of the (true-division) quotient, which for integers equals
`Nat.sqrt` of the integer quotient. The attempt budget is
`num_regions * 100`. -/
def RegionGenerator.generateSeedPoints (stream : ℕ → ℚ) (width height num_regions : ℕ)
    (bm : List (List String)) : List (ℕ × ℕ) :=
  seedLoop stream (Nat.sqrt (width * height / (num_regions * 2))) num_regions
    (num_regions * 100) 0 []
    (sortByWeightDesc (RegionGenerator.validPositions width height bm))

/-! ### C7: pairwise minimum separation of accepted seeds -/

theorem seedIteration_pairwise (minDist : ℕ) (seeds : List (ℕ × ℕ))
    (pool : List (ℕ × ℕ × ℚ)) (r : ℚ)
    (h : seeds.Pairwise (fun p q => minDist ≤ manhattan p q)) :
    (seedIteration minDist seeds pool r).1.Pairwise (fun p q => minDist ≤ manhattan p q) := by
  unfold seedIteration
  cases scanSelect pool 0 r with
  | none => exact h
  | some xy =>
    obtain ⟨x, y⟩ := xy
    dsimp only
    by_cases hclose : seeds.any (fun sp => decide (manhattan (x, y) sp < minDist)) = true
    · rw [if_pos hclose]
      exact h
    · rw [if_neg hclose]
      rw [List.pairwise_append]
      refine ⟨h, List.pairwise_singleton _ _, ?_⟩
      intro a ha b hb
      simp only [List.mem_singleton] at hb
      subst hb
      simp only [List.any_eq_true, decide_eq_true_eq, not_exists, not_and] at hclose
      have := hclose a ha
      rw [manhattan_comm]
      omega

theorem seedLoop_pairwise (stream : ℕ → ℚ) (minDist num : ℕ) :
    ∀ (fuel attempts : ℕ) (seeds : List (ℕ × ℕ)) (pool : List (ℕ × ℕ × ℚ)),
    seeds.Pairwise (fun p q => minDist ≤ manhattan p q) →
    (seedLoop stream minDist num fuel attempts seeds pool).Pairwise
      (fun p q => minDist ≤ manhattan p q) := by
  intro fuel
  induction fuel with
  | zero => intro attempts seeds pool h; exact h
  | succ n ih =>
    intro attempts seeds pool h
    unfold seedLoop
    by_cases hlen : seeds.length < num
    · rw [if_pos hlen]
      exact ih _ _ _ (seedIteration_pairwise minDist seeds pool (stream attempts) h)
    · rw [if_neg hlen]
      exact h

/-- **C7**: every pair of distinct seeds returned by
`_generate_seed_points` is at Manhattan distance at least
`d = floor(sqrt((width * height) / (num_regions * 2)))`; the acceptance
check enforces this at the moment each seed is appended, so it holds of
the final list (for any draw stream, i.e. any possible sequence of
`random.uniform` results). -/
theorem generateSeedPoints_min_separation (stream : ℕ → ℚ)
    (width height num_regions : ℕ) (bm : List (List String)) :
    (RegionGenerator.generateSeedPoints stream width height num_regions bm).Pairwise
      (fun p q => Nat.sqrt (width * height / (num_regions * 2)) ≤ manhattan p q) := by
  unfold RegionGenerator.generateSeedPoints
  exact seedLoop_pairwise stream _ num_regions _ 0 [] _ (List.Pairwise.nil)

/-! ### C9: attempt budget, early stop, degraded outcome -/

theorem seedLoop_congr_stream (stream stream2 : ℕ → ℚ) (minDist num : ℕ) :
    ∀ (fuel attempts : ℕ) (seeds : List (ℕ × ℕ)) (pool : List (ℕ × ℕ × ℚ)),
    (∀ i, attempts ≤ i → i < attempts + fuel → stream i = stream2 i) →
    seedLoop stream minDist num fuel attempts seeds pool =
      seedLoop stream2 minDist num fuel attempts seeds pool := by
  intro fuel
  induction fuel with
  | zero => intro attempts seeds pool _; rfl
  | succ n ih =>
    intro attempts seeds pool hagree
    unfold seedLoop
    by_cases hlen : seeds.length < num
    · rw [if_pos hlen, if_pos hlen]
      rw [hagree attempts (le_refl _) (by omega)]
      exact ih (attempts + 1) _ _ (fun i h1 h2 => hagree i (by omega) (by omega))
    · rw [if_neg hlen, if_neg hlen]

theorem seedLoop_length_le (stream : ℕ → ℚ) (minDist num : ℕ) :
    ∀ (fuel attempts : ℕ) (seeds : List (ℕ × ℕ)) (pool : List (ℕ × ℕ × ℚ)),
    seeds.length ≤ num →
    (seedLoop stream minDist num fuel attempts seeds pool).length ≤ num := by
  intro fuel
  induction fuel with
  | zero => intro attempts seeds pool h; exact h
  | succ n ih =>
    intro attempts seeds pool h
    unfold seedLoop
    by_cases hlen : seeds.length < num
    · rw [if_pos hlen]
      apply ih
      unfold seedIteration
      cases scanSelect pool 0 (stream attempts) with
      | none => exact h
      | some xy =>
        obtain ⟨x, y⟩ := xy
        dsimp only
        by_cases hclose : seeds.any (fun sp => decide (manhattan (x, y) sp < minDist)) = true
        · rw [if_pos hclose]; exact h
        · rw [if_neg hclose]
          simp only [List.length_append, List.length_singleton]
          omega
    · rw [if_neg hlen]
      exact h

theorem seedLoop_stops_when_full (stream : ℕ → ℚ) (minDist num : ℕ)
    (fuel attempts : ℕ) (seeds : List (ℕ × ℕ)) (pool : List (ℕ × ℕ × ℚ))
    (h : num ≤ seeds.length) :
    seedLoop stream minDist num fuel attempts seeds pool = seeds := by
  cases fuel with
  | zero => rfl
  | succ n =>
    unfold seedLoop
    rw [if_neg (by omega)]

/-- **C9**: the seed-selection loop (i) consumes at most
`num_regions * 100` draws — its result depends only on the first
`num_regions * 100` values of the draw stream; (ii) never places more than
`num_regions` seeds; and (iii) stops as soon as `num_regions` seeds are
placed (the loop returns the accepted list unchanged once it is full).
The function is total and simply returns whatever (possibly shorter) list
was accepted within the budget — there is no error path. -/
theorem generateSeedPoints_budget (stream stream2 : ℕ → ℚ)
    (width height num_regions : ℕ) (bm : List (List String))
    (hagree : ∀ i < num_regions * 100, stream i = stream2 i) :
    RegionGenerator.generateSeedPoints stream width height num_regions bm =
      RegionGenerator.generateSeedPoints stream2 width height num_regions bm ∧
    (RegionGenerator.generateSeedPoints stream width height num_regions bm).length ≤
      num_regions ∧
    (∀ (minDist fuel attempts : ℕ) (seeds : List (ℕ × ℕ)) (pool : List (ℕ × ℕ × ℚ)),
      num_regions ≤ seeds.length →
      seedLoop stream minDist num_regions fuel attempts seeds pool = seeds) := by
  refine ⟨?_, ?_, ?_⟩
  · unfold RegionGenerator.generateSeedPoints
    exact seedLoop_congr_stream stream stream2 _ _ _ 0 [] _
      (fun i h1 h2 => hagree i (by omega))
  · unfold RegionGenerator.generateSeedPoints
    exact seedLoop_length_le stream _ _ _ 0 [] _ (by simp)
  · intro minDist fuel attempts seeds pool h
    exact seedLoop_stops_when_full stream minDist num_regions fuel attempts seeds pool h

/-- Witness for C9 with both streams constantly `0` and
`num_regions = 2` on a 2×2 all-grassland biome map. -/
theorem generateSeedPoints_budget_witness :
    RegionGenerator.generateSeedPoints (fun _ => 0) 2 2 2
        [["grassland", "grassland"], ["grassland", "grassland"]] =
      RegionGenerator.generateSeedPoints (fun _ => 0) 2 2 2
        [["grassland", "grassland"], ["grassland", "grassland"]] ∧
    (RegionGenerator.generateSeedPoints (fun _ => 0) 2 2 2
        [["grassland", "grassland"], ["grassland", "grassland"]]).length ≤ 2 ∧
    (∀ (minDist fuel attempts : ℕ) (seeds : List (ℕ × ℕ)) (pool : List (ℕ × ℕ × ℚ)),
      2 ≤ seeds.length →
      seedLoop (fun _ => 0) minDist 2 fuel attempts seeds pool = seeds) :=
  generateSeedPoints_budget (fun _ => 0) (fun _ => 0) 2 2 2
    [["grassland", "grassland"], ["grassland", "grassland"]]
    (fun _ _ => rfl)

/-! ## region_generator.py: tile assignment (`_assign_tiles_to_regions`) -/

/-- `min_dist` comparison against `float('inf')`: `none` models infinity,
so every distance beats it. -/
def distLtOpt (d : ℕ) : Option ℕ → Bool
  | none => true
  | some m => decide (d < m)

/-- The inner `for i, (sx, sy) in enumerate(seeds)` scan of
`_assign_tiles_to_regions`: starting from `min_dist = inf`,
`nearest_region = -1`, update both on strict improvement. -/
def nearestScan (x y : ℕ) : List (ℕ × ℕ) → ℕ → Option ℕ → Int → Int
  | [], _, _, best => best
  | sp :: rest, i, curMin, best =>
    let d := manhattan (x, y) sp
    if distLtOpt d curMin then nearestScan x y rest (i + 1) (some d) (i : Int)
    else nearestScan x y rest (i + 1) curMin best

/-- The region index `_assign_tiles_to_regions` stores for cell `(x, y)`. -/
def nearestRegion (seeds : List (ℕ × ℕ)) (x y : ℕ) : Int :=
  nearestScan x y seeds 0 none (-1)

theorem nearestScan_spec (x y : ℕ) :
    ∀ (l : List (ℕ × ℕ)) (i : ℕ) (m : ℕ) (b : Int),
    (nearestScan x y l i (some m) b = b ∧
      ∀ j < l.length, m ≤ manhattan (x, y) (l.getD j (0, 0))) ∨
    (∃ k, k < l.length ∧ nearestScan x y l i (some m) b = ((i + k : ℕ) : Int) ∧
      manhattan (x, y) (l.getD k (0, 0)) < m ∧
      (∀ j < l.length,
        manhattan (x, y) (l.getD k (0, 0)) ≤ manhattan (x, y) (l.getD j (0, 0))) ∧
      (∀ j < k,
        manhattan (x, y) (l.getD k (0, 0)) < manhattan (x, y) (l.getD j (0, 0)))) := by
  intro l
  induction l with
  | nil =>
    intro i m b
    left
    exact ⟨rfl, fun j hj => by simp at hj⟩
  | cons sp rest ih =>
    intro i m b
    unfold nearestScan
    by_cases hlt : manhattan (x, y) sp < m
    · rw [if_pos (by simp [distLtOpt, hlt])]
      rcases ih (i + 1) (manhattan (x, y) sp) (i : Int) with ⟨heq, hall⟩ | ⟨k, hk, heq, hless, hmin, hstrict⟩
      · right
        refine ⟨0, by simp, by simpa using heq, by simpa using hlt, ?_, ?_⟩
        · intro j hj
          cases j with
          | zero => simp
          | succ j2 =>
            simp only [List.getD_cons_zero, List.getD_cons_succ]
            exact hall j2 (by simpa using hj)
        · intro j hj
          omega
      · right
        refine ⟨k + 1, by simpa using hk, ?_, ?_, ?_, ?_⟩
        · rw [heq]
          push_cast
          ring_nf
        · simp only [List.getD_cons_succ]
          omega
        · intro j hj
          cases j with
          | zero =>
            simp only [List.getD_cons_succ, List.getD_cons_zero]
            omega
          | succ j2 =>
            simp only [List.getD_cons_succ]
            exact hmin j2 (by simpa using hj)
        · intro j hj
          cases j with
          | zero =>
            simp only [List.getD_cons_succ, List.getD_cons_zero]
            omega
          | succ j2 =>
            simp only [List.getD_cons_succ]
            exact hstrict j2 (by omega)
    · rw [if_neg (by simp [distLtOpt, hlt])]
      rcases ih (i + 1) m b with ⟨heq, hall⟩ | ⟨k, hk, heq, hless, hmin, hstrict⟩
      · left
        refine ⟨heq, ?_⟩
        intro j hj
        cases j with
        | zero => simp; omega
        | succ j2 =>
          simp only [List.getD_cons_succ]
          exact hall j2 (by simpa using hj)
      · right
        refine ⟨k + 1, by simpa using hk, ?_, by simpa using hless, ?_, ?_⟩
        · rw [heq]
          push_cast
          ring_nf
        · intro j hj
          cases j with
          | zero =>
            simp only [List.getD_cons_succ, List.getD_cons_zero]
            omega
          | succ j2 =>
            simp only [List.getD_cons_succ]
            exact hmin j2 (by simpa using hj)
        · intro j hj
          cases j with
          | zero =>
            simp only [List.getD_cons_succ, List.getD_cons_zero]
            omega
          | succ j2 =>
            simp only [List.getD_cons_succ]
            exact hstrict j2 (by omega)

/-- Helper: for a non-empty seed list the stored index is the lowest index
attaining the minimum Manhattan distance. -/
theorem nearestRegion_spec (seeds : List (ℕ × ℕ)) (x y : ℕ) (hne : seeds ≠ []) :
    ∃ k, k < seeds.length ∧ nearestRegion seeds x y = (k : Int) ∧
      (∀ j < seeds.length,
        manhattan (x, y) (seeds.getD k (0, 0)) ≤ manhattan (x, y) (seeds.getD j (0, 0))) ∧
      (∀ j < k,
        manhattan (x, y) (seeds.getD k (0, 0)) < manhattan (x, y) (seeds.getD j (0, 0))) := by
  cases seeds with
  | nil => exact absurd rfl hne
  | cons sp rest =>
    unfold nearestRegion nearestScan
    rw [if_pos (by simp [distLtOpt])]
    simp only [Nat.zero_add, Nat.cast_zero]
    rcases nearestScan_spec x y rest 1 (manhattan (x, y) sp) 0 with
      ⟨heq, hall⟩ | ⟨k, hk, heq, hless, hmin, hstrict⟩
    · refine ⟨0, by simp, by simpa using heq, ?_, by omega⟩
      intro j hj
      cases j with
      | zero => simp
      | succ j2 =>
        simp only [List.getD_cons_zero, List.getD_cons_succ]
        exact hall j2 (by simpa using hj)
    · refine ⟨k + 1, by simpa using hk, by rw [heq]; push_cast; ring, ?_, ?_⟩
      · intro j hj
        cases j with
        | zero =>
          simp only [List.getD_cons_succ, List.getD_cons_zero]
          omega
        | succ j2 =>
          simp only [List.getD_cons_succ]
          exact hmin j2 (by simpa using hj)
      · intro j hj
        cases j with
        | zero =>
          simp only [List.getD_cons_succ, List.getD_cons_zero]
          omega
        | succ j2 =>
          simp only [List.getD_cons_succ]
          exact hstrict j2 (by omega)

/-- One record of `region_data` in `_assign_tiles_to_regions`. The Python
`tiles` set receives each cell exactly once (the double loop visits every
cell once), so it is modelled as the duplicate-free list of members in
visit (row-major) order; `biome_counts` is a `Counter`, modelled as an
association list in key-insertion order — the order `most_common` uses to
break count ties. -/
structure RegionInfo where
  rid : Int
  seedPos : ℕ × ℕ
  area : ℕ
  tiles : List (ℕ × ℕ)
  biomeCounts : List (String × ℕ)
  dominantBiome : Option String
  centroid : ℕ × ℕ
deriving DecidableEq

/-- The `defaultdict` default record of `_assign_tiles_to_regions`. -/
def defaultRegionInfo : RegionInfo :=
  ⟨-1, (0, 0), 0, [], [], none, (0, 0)⟩

/-- `Counter` increment: bump an existing key or append it with count 1. -/
def counterAdd (cnt : List (String × ℕ)) (k : String) : List (String × ℕ) :=
  if (cnt.lookup k).isSome then
    cnt.map (fun kv => if kv.1 = k then (kv.1, kv.2 + 1) else kv)
  else cnt ++ [(k, 1)]

/-- `Counter.most_common(1)[0][0]`: the key of highest count, ties broken
by earliest insertion (`most_common` sorts stably over insertion order).
Returns `""` on an empty counter; the code guards that case. -/
def counterMostCommon (cnt : List (String × ℕ)) : String :=
  match cnt with
  | [] => ""
  | kv :: rest => (rest.foldl (fun best kv2 => if kv2.2 > best.2 then kv2 else best) kv).1

/-- `defaultdict` update: modify the entry at `k`, creating it from the
default if absent; entries keep dict insertion order. -/
def dataUpdate (data : List (Int × RegionInfo)) (k : Int) (f : RegionInfo → RegionInfo) :
    List (Int × RegionInfo) :=
  if (data.lookup k).isSome then
    data.map (fun kv => if kv.1 = k then (kv.1, f kv.2) else kv)
  else data ++ [(k, f defaultRegionInfo)]

/-- The `for i, (x, y) in enumerate(seeds)` initialisation loop of
`_assign_tiles_to_regions`: id, seed and centroid set from the seed. -/
def initRegionData (seeds : List (ℕ × ℕ)) : List (Int × RegionInfo) :=
  seeds.enum.map (fun ip =>
    ((ip.1 : Int), ⟨(ip.1 : Int), ip.2, 0, [], [], none, ip.2⟩))

/-- The row-major cell visit order of the nested
`for y in range(height): for x in range(width)` loops. -/
def rowMajorCells (width height : ℕ) : List (ℕ × ℕ) :=
  (List.range height).flatMap (fun y => (List.range width).map (fun x => (x, y)))

/-- The per-cell `region_data` update of the assignment loop. -/
def assignCellUpdate (bm : List (List String)) (seeds : List (ℕ × ℕ))
    (data : List (Int × RegionInfo)) (p : ℕ × ℕ) : List (Int × RegionInfo) :=
  dataUpdate data (nearestRegion seeds p.1 p.2)
    (fun r => { r with
      area := r.area + 1,
      tiles := r.tiles ++ [p],
      biomeCounts := counterAdd r.biomeCounts (bmAt bm p.1 p.2) })

/-- The post-pass `for region_id, data in region_data.items()` loop:
dominant biome from the counter (when nonempty), centroid as the
integer-truncated mean of the member cells (when any). -/
def finalizeRegionInfo (r : RegionInfo) : RegionInfo :=
  let r1 := if r.biomeCounts.isEmpty then r
    else { r with dominantBiome := some (counterMostCommon r.biomeCounts) }
  if r1.tiles.isEmpty then r1
  else { r1 with centroid :=
    ((r1.tiles.map Prod.fst).sum / r1.area, (r1.tiles.map Prod.snd).sum / r1.area) }

/-- `RegionGenerator._assign_tiles_to_regions`: every cell is stored the
index of its nearest seed (`-1` when there are no seeds), and the region
records accumulate area / member set / biome counts during the same pass,
finalised with dominant biome and centroid. -/
def RegionGenerator.assignTilesToRegions (width height : ℕ) (seeds : List (ℕ × ℕ))
    (bm : List (List String)) : List (List Int) × List (Int × RegionInfo) :=
  ((List.range height).map (fun y =>
      (List.range width).map (fun x => nearestRegion seeds x y)),
   ((rowMajorCells width height).foldl (assignCellUpdate bm seeds)
      (initRegionData seeds)).map (fun kv => (kv.1, finalizeRegionInfo kv.2)))

/-- The in-bounds 8-neighbourhood scan of `_smooth_regions`, in `dy` then
`dx` order (out-of-bounds neighbours are skipped, not sentinel-padded). -/
def smoothNeighbors (rm : List (List Int)) (x y : ℕ) : List Int :=
  ([-1, 0, 1] : List Int).flatMap (fun dy =>
    ([-1, 0, 1] : List Int).flatMap (fun dx =>
      if dx = 0 ∧ dy = 0 then []
      else
        let nx := (x : Int) + dx
        let ny := (y : Int) + dy
        if 0 ≤ nx ∧ nx < ((rm.headD []).length : Int) ∧
           0 ≤ ny ∧ ny < (rm.length : Int) then
          [(rm.getD ny.toNat []).getD nx.toNat (-1)]
        else []))

/-- `Counter(neighbors).most_common(1)[0][0]`: highest count, ties broken
by first occurrence in the neighbour list. -/
def mostCommonNeighbor (l : List Int) : Int :=
  l.foldl (fun best v => if l.count v > l.count best then v else best) (l.headD 0)

/-- One pass of `_smooth_regions`: a genuinely double-buffered pass — every
cell of `new_map` is the neighbour majority computed on the previous
(`smoothed`) grid; a cell with no neighbours keeps its value. -/
def smoothOnce (rm : List (List Int)) : List (List Int) :=
  (List.range rm.length).map (fun y =>
    (List.range (rm.headD []).length).map (fun x =>
      let ns := smoothNeighbors rm x y
      if ns.isEmpty then (rm.getD y []).getD x 0
      else mostCommonNeighbor ns))

/-- `RegionGenerator._smooth_regions` with its pass count. -/
def RegionGenerator.smoothRegions (rm : List (List Int)) (iterations : ℕ) :
    List (List Int) :=
  (List.range iterations).foldl (fun acc _ => smoothOnce acc) rm

/-- `RegionGenerator.generate_regions`: seed selection, assignment, then
two smoothing passes over the region grid. The region records returned
are the ones accumulated during assignment — nothing recomputes them after
smoothing. -/
def RegionGenerator.generateRegions (stream : ℕ → ℚ) (width height num_regions : ℕ)
    (bm : List (List String)) :
    List (List Int) × List (ℕ × ℕ) × List (Int × RegionInfo) :=
  let seeds := RegionGenerator.generateSeedPoints stream width height num_regions bm
  let rmData := RegionGenerator.assignTilesToRegions width height seeds bm
  (RegionGenerator.smoothRegions rmData.1 2, seeds, rmData.2)

/-! ### C8: nearest-seed assignment, lowest index on ties -/

theorem gridBuild_at {α : Type} (w h2 : ℕ) (f : ℕ → ℕ → α) (x y : ℕ)
    (hx : x < w) (hy : y < h2) (d : α) (drow : List α) :
    (((List.range h2).map (fun j => (List.range w).map (fun i => f i j))).getD y drow).getD
      x d = f x y := by
  simp [List.getD_eq_getElem?_getD, List.getElem?_map, List.getElem?_range, hx, hy]

/-- **C8**: for a non-empty seed list, `_assign_tiles_to_regions` stores at
cell `(x, y)` the index of a seed at minimal Manhattan distance, and among
the seeds attaining that minimum, the lowest index (the first one
encountered by the enumeration scan). -/
theorem assignTiles_nearest_lowest_index (width height : ℕ) (seeds : List (ℕ × ℕ))
    (bm : List (List String)) (x y : ℕ) (hne : seeds ≠ [])
    (hx : x < width) (hy : y < height) :
    ∃ k, k < seeds.length ∧
      (((RegionGenerator.assignTilesToRegions width height seeds bm).1.getD y []).getD
        x (-1)) = (k : Int) ∧
      (∀ j < seeds.length,
        manhattan (x, y) (seeds.getD k (0, 0)) ≤ manhattan (x, y) (seeds.getD j (0, 0))) ∧
      (∀ j < k,
        manhattan (x, y) (seeds.getD k (0, 0)) < manhattan (x, y) (seeds.getD j (0, 0))) := by
  obtain ⟨k, hk, hval, hmin, hstrict⟩ := nearestRegion_spec seeds x y hne
  refine ⟨k, hk, ?_, hmin, hstrict⟩
  unfold RegionGenerator.assignTilesToRegions
  rw [gridBuild_at width height (fun i j => nearestRegion seeds i j) x y hx hy]
  exact hval

/-- Witness for C8: lattice of two seeds, the cell `(1, 0)` is equidistant
from both and gets index 0. -/
theorem assignTiles_nearest_lowest_index_witness :
    ∃ k, k < ([((0 : ℕ), (0 : ℕ)), (2, 0)] : List (ℕ × ℕ)).length ∧
      (((RegionGenerator.assignTilesToRegions 3 1 [(0, 0), (2, 0)] [["grassland",
        "grassland", "grassland"]]).1.getD 0 []).getD 1 (-1)) = (k : Int) ∧
      (∀ j < ([((0 : ℕ), (0 : ℕ)), (2, 0)] : List (ℕ × ℕ)).length,
        manhattan (1, 0) (([((0 : ℕ), (0 : ℕ)), (2, 0)] : List (ℕ × ℕ)).getD k (0, 0)) ≤
          manhattan (1, 0) (([((0 : ℕ), (0 : ℕ)), (2, 0)] : List (ℕ × ℕ)).getD j (0, 0))) ∧
      (∀ j < k,
        manhattan (1, 0) (([((0 : ℕ), (0 : ℕ)), (2, 0)] : List (ℕ × ℕ)).getD k (0, 0)) <
          manhattan (1, 0) (([((0 : ℕ), (0 : ℕ)), (2, 0)] : List (ℕ × ℕ)).getD j (0, 0))) :=
  assignTiles_nearest_lowest_index 3 1 [(0, 0), (2, 0)]
    [["grassland", "grassland", "grassland"]] 1 0 (by decide) (by decide) (by decide)

/-! ## biome_rules.py: the terrain rule engine -/

/-- `width = len(terrain_map[0])`. -/
def gridWidth (m : List (List String)) : ℕ := (m.headD []).length

/-- `height = len(terrain_map)`. -/
def gridHeight (m : List (List String)) : ℕ := m.length

/-- `terrain_map[y][x]` for in-range indices. -/
def cellAt (m : List (List String)) (x y : ℕ) : String := (m.getD y []).getD x ""

/-- `new_map[y][x] = v`. -/
def gridSet (m : List (List String)) (x y : ℕ) (v : String) : List (List String) :=
  m.set y ((m.getD y []).set x v)

/-- `BiomeRuleEngine._get_neighbors`: the 8-neighbourhood in `dy` then
`dx` order, `""` for out-of-bounds positions. -/
def BiomeRuleEngine.getNeighbors (m : List (List String)) (x y : ℕ) : List String :=
  ([-1, 0, 1] : List Int).flatMap (fun dy =>
    ([-1, 0, 1] : List Int).flatMap (fun dx =>
      if dx = 0 ∧ dy = 0 then []
      else
        let nx := (x : Int) + dx
        let ny := (y : Int) + dy
        if 0 ≤ nx ∧ nx < (gridWidth m : Int) ∧ 0 ≤ ny ∧ ny < (gridHeight m : Int) then
          [cellAt m nx.toNat ny.toNat]
        else [""]))

/-- Rule 1, `_rule_mountain_water`: mountain adjacent to deep water
becomes forest. -/
def BiomeRuleEngine.ruleMountainWater (m : List (List String)) (x y : ℕ) : String :=
  if cellAt m x y ≠ TileType.MOUNTAIN then cellAt m x y
  else if TileType.DEEP_WATER ∈ BiomeRuleEngine.getNeighbors m x y then TileType.FOREST
  else cellAt m x y

/-- Rule 2, `_rule_isolated_grass`: grass with at least 5 sand neighbours
becomes sand. -/
def BiomeRuleEngine.ruleIsolatedGrass (m : List (List String)) (x y : ℕ) : String :=
  if cellAt m x y ≠ TileType.GRASS then cellAt m x y
  else if 5 ≤ (BiomeRuleEngine.getNeighbors m x y).count TileType.SAND then TileType.SAND
  else cellAt m x y

/-- Rule 3, `_rule_isolated_water`: shallow water with at least 6
grass-or-sand neighbours becomes sand (the "pond" placeholder). -/
def BiomeRuleEngine.ruleIsolatedWater (m : List (List String)) (x y : ℕ) : String :=
  if cellAt m x y ≠ TileType.SHALLOW_WATER then cellAt m x y
  else if 6 ≤ (BiomeRuleEngine.getNeighbors m x y).count TileType.GRASS +
      (BiomeRuleEngine.getNeighbors m x y).count TileType.SAND then TileType.SAND
  else cellAt m x y

/-- Rule 4, `_rule_isolated_forest`: forest with no grass or forest
neighbour becomes grass. -/
def BiomeRuleEngine.ruleIsolatedForest (m : List (List String)) (x y : ℕ) : String :=
  if cellAt m x y ≠ TileType.FOREST then cellAt m x y
  else if (BiomeRuleEngine.getNeighbors m x y).any
      (fun n => decide (n = TileType.GRASS ∨ n = TileType.FOREST)) then cellAt m x y
  else TileType.GRASS

/-- The per-cell rule cascade of `apply_rules`: apply the four rules in
order against the current buffer, stopping at the first rule that changes
the cell. -/
def BiomeRuleEngine.applyCellRules (m : List (List String)) (x y : ℕ) : String :=
  let current := cellAt m x y
  let r1 := BiomeRuleEngine.ruleMountainWater m x y
  if r1 ≠ current then r1
  else
    let r2 := BiomeRuleEngine.ruleIsolatedGrass m x y
    if r2 ≠ current then r2
    else
      let r3 := BiomeRuleEngine.ruleIsolatedWater m x y
      if r3 ≠ current then r3
      else
        let r4 := BiomeRuleEngine.ruleIsolatedForest m x y
        if r4 ≠ current then r4 else current

/-- `BiomeRuleEngine.apply_rules`: copy the grid into `new_map`, then for
every cell in row-major order evaluate the rules against the CURRENT state
of `new_map` (which already holds the rewrites of earlier cells of this
same pass) and write the result back into `new_map`. -/
def BiomeRuleEngine.applyRules (m : List (List String)) : List (List String) :=
  (rowMajorCells (gridWidth m) (gridHeight m)).foldl
    (fun acc p => gridSet acc p.1 p.2 (BiomeRuleEngine.applyCellRules acc p.1 p.2)) m

/-- Modelled from the spec (for the C1 refinement comparison): the
double-buffered reference pass of the spec, where every cell's rules read
exclusively the immutable pre-pass grid and write a fresh output grid. -/
def applyRulesSnapshot (m : List (List String)) : List (List String) :=
  (List.range (gridHeight m)).map (fun y =>
    (List.range (gridWidth m)).map (fun x => BiomeRuleEngine.applyCellRules m x y))

/-- **C1 counterexample**: on this 4×3 terrain grid the pass of
`apply_rules` differs from the spec's double-buffered reference pass.
Cell (1,1) is grass with 6 sand neighbours and is rewritten to sand by
rule 2; cell (2,1), processed next, has only 4 sand neighbours in the
pre-pass grid but sees the fresh sand at (1,1) in the shared buffer, so
the in-place pass also rewrites it to sand while the snapshot pass leaves
it grass. -/
theorem applyRules_not_snapshot_counterexample :
    BiomeRuleEngine.applyRules
        [["sand", "sand", "sand", "sand"],
         ["sand", "grass", "grass", "mountain"],
         ["sand", "sand", "grass", "mountain"]] ≠
      applyRulesSnapshot
        [["sand", "sand", "sand", "sand"],
         ["sand", "grass", "grass", "mountain"],
         ["sand", "sand", "grass", "mountain"]] := by
  decide

/-! ### C1 amended: the buffer really is shared within the pass -/

theorem getD_set_ne {α : Type} (l : List α) (n k : ℕ) (a d : α) (h : n ≠ k) :
    (l.set n a).getD k d = l.getD k d := by
  simp [List.getD_eq_getElem?_getD, List.getElem?_set_ne h]

theorem getD_set_self {α : Type} (l : List α) (n : ℕ) (a d : α) (h : n < l.length) :
    (l.set n a).getD n d = a := by
  rw [List.getD_eq_getElem?_getD, List.getElem?_set_self]
  all_goals simp [h]

theorem cellAt_gridSet_ne (m : List (List String)) (x y i j : ℕ) (v : String)
    (h : ¬(i = x ∧ j = y)) : cellAt (gridSet m x y v) i j = cellAt m i j := by
  unfold cellAt gridSet
  by_cases hj : j = y
  · subst hj
    have hix : i ≠ x := fun hc => h ⟨hc, rfl⟩
    by_cases hy : j < m.length
    · rw [getD_set_self m j _ [] hy, getD_set_ne _ _ _ _ _ (Ne.symm hix)]
    · rw [List.set_eq_of_length_le (by omega)]
  · rw [getD_set_ne _ _ _ _ _ (fun hc => hj hc.symm)]

theorem cellAt_gridSet_self (m : List (List String)) (x y : ℕ) (v : String)
    (hy : y < m.length) (hx : x < (m.getD y []).length) :
    cellAt (gridSet m x y v) x y = v := by
  unfold cellAt gridSet
  rw [getD_set_self m y _ [] hy, getD_set_self _ x _ _ hx]

theorem gridSet_length (m : List (List String)) (x y : ℕ) (v : String) :
    (gridSet m x y v).length = m.length := by
  unfold gridSet
  exact List.length_set ..

theorem gridSet_rowLength (m : List (List String)) (x y : ℕ) (v : String) (j : ℕ) :
    ((gridSet m x y v).getD j []).length = (m.getD j []).length := by
  unfold gridSet
  by_cases hj : j = y
  · subst hj
    by_cases hy : j < m.length
    · rw [getD_set_self m j _ [] hy, List.length_set]
    · rw [List.set_eq_of_length_le (by omega)]
  · rw [getD_set_ne _ _ _ _ _ (fun hc => hj hc.symm)]

/-- The per-cell step of `apply_rules`. -/
def applyRulesStep (acc : List (List String)) (p : ℕ × ℕ) : List (List String) :=
  gridSet acc p.1 p.2 (BiomeRuleEngine.applyCellRules acc p.1 p.2)

theorem applyRulesStep_fold (cs : List (ℕ × ℕ)) (m : List (List String)) :
    cs.foldl (fun acc p => gridSet acc p.1 p.2 (BiomeRuleEngine.applyCellRules acc p.1 p.2)) m =
      cs.foldl applyRulesStep m := rfl

theorem foldl_step_length (cs : List (ℕ × ℕ)) :
    ∀ m : List (List String), (cs.foldl applyRulesStep m).length = m.length := by
  induction cs with
  | nil => intro m; rfl
  | cons p ps ih =>
    intro m
    rw [List.foldl_cons, ih]
    exact gridSet_length ..

theorem foldl_step_rowLength (cs : List (ℕ × ℕ)) :
    ∀ (m : List (List String)) (j : ℕ),
    ((cs.foldl applyRulesStep m).getD j []).length = ((m.getD j []).length) := by
  induction cs with
  | nil => intro m j; rfl
  | cons p ps ih =>
    intro m j
    rw [List.foldl_cons, ih]
    exact gridSet_rowLength ..

theorem foldl_step_untouched (cs : List (ℕ × ℕ)) :
    ∀ (m : List (List String)) (i j : ℕ),
    (∀ p ∈ cs, ¬(p.1 = i ∧ p.2 = j)) →
    cellAt (cs.foldl applyRulesStep m) i j = cellAt m i j := by
  induction cs with
  | nil => intro m i j _; rfl
  | cons p ps ih =>
    intro m i j hmem
    rw [List.foldl_cons, ih _ i j (fun q hq => hmem q (by simp [hq]))]
    unfold applyRulesStep
    apply cellAt_gridSet_ne
    intro hc
    exact hmem p (by simp) ⟨hc.1.symm, hc.2.symm⟩

theorem rowMajorCells_mem (w h : ℕ) (p : ℕ × ℕ) :
    p ∈ rowMajorCells w h ↔ p.1 < w ∧ p.2 < h := by
  unfold rowMajorCells
  simp only [List.mem_flatMap, List.mem_map, List.mem_range]
  constructor
  · rintro ⟨y, hy, x, hx, rfl⟩
    exact ⟨hx, hy⟩
  · rintro ⟨h1, h2⟩
    exact ⟨p.2, h2, p.1, h1, rfl⟩

theorem rangeSplit (n k : ℕ) (h : k < n) :
    List.range n = List.range k ++ k :: (List.range (n - k - 1)).map (fun t => k + 1 + t) := by
  have hn : n = (k + 1) + (n - k - 1) := by omega
  rw [hn, List.range_add]
  have : List.range (k + 1) = List.range k ++ [k] := by
    rw [show k + 1 = Nat.succ k from rfl, List.range_succ]
  rw [this]
  simp only [List.append_assoc, List.cons_append, List.nil_append]
  have h2 : k + 1 + (n - k - 1) - k - 1 = n - k - 1 := by omega
  rw [h2]

theorem rowMajor_split (w h x y : ℕ) (hx : x < w) (hy : y < h) :
    rowMajorCells w h =
      (rowMajorCells w y ++ (List.range x).map (fun i => (i, y))) ++ (x, y) ::
        ((List.range (w - x - 1)).map (fun t => (x + 1 + t, y)) ++
         ((List.range (h - y - 1)).map (fun t => y + 1 + t)).flatMap
           (fun j => (List.range w).map (fun i => (i, j)))) := by
  unfold rowMajorCells
  rw [rangeSplit h y hy]
  simp only [List.flatMap_append, List.flatMap_cons]
  rw [rangeSplit w x hx]
  simp only [List.map_append, List.map_cons, List.map_map, Function.comp_def,
    List.append_assoc, List.cons_append]

/-- Modelled from the spec side of the C1 comparison: the buffer contents
that the in-place pass presents to cell `(x, y)` — cells strictly before
`(x, y)` in row-major order already hold this pass's output, all other
cells still hold the input grid. -/
def mixGrid (g out : List (List String)) (x y : ℕ) : List (List String) :=
  (List.range (gridHeight g)).map (fun j =>
    (List.range (gridWidth g)).map (fun i =>
      if j < y ∨ (j = y ∧ i < x) then cellAt out i j else cellAt g i j))

/-- **C1 amended**: on any rectangular terrain grid, the value
`apply_rules` stores at cell `(x, y)` is the rule cascade evaluated NOT on
the pre-pass snapshot but on the mixed buffer in which every cell earlier
in row-major order has already been rewritten by this same pass (and later
cells are still pre-pass). -/
theorem applyRules_reads_shared_buffer
    (g : List (List String)) (hrect : ∀ row ∈ g, row.length = gridWidth g)
    (x y : ℕ) (hx : x < gridWidth g) (hy : y < gridHeight g) :
    cellAt (BiomeRuleEngine.applyRules g) x y =
      BiomeRuleEngine.applyCellRules (mixGrid g (BiomeRuleEngine.applyRules g) x y) x y := by
  have hrow_len : ∀ j, j < g.length → (g.getD j []).length = gridWidth g := by
    intro j hj
    apply hrect
    rw [List.getD_eq_getElem g [] hj]
    exact List.getElem_mem hj
  have hsplit := rowMajor_split (gridWidth g) (gridHeight g) x y hx hy
  have hfold : BiomeRuleEngine.applyRules g =
      (((rowMajorCells (gridWidth g) y ++ (List.range x).map (fun i => (i, y))) ++ (x, y) ::
        ((List.range (gridWidth g - x - 1)).map (fun t => (x + 1 + t, y)) ++
         ((List.range (gridHeight g - y - 1)).map (fun t => y + 1 + t)).flatMap
           (fun j => (List.range (gridWidth g)).map (fun i => (i, j))))).foldl
        applyRulesStep g) := by
    unfold BiomeRuleEngine.applyRules
    rw [applyRulesStep_fold, hsplit]
  have hbefore_mem : ∀ q ∈ rowMajorCells (gridWidth g) y ++
      (List.range x).map (fun i => (i, y)), q.2 < y ∨ (q.2 = y ∧ q.1 < x) := by
    intro q hq
    rcases List.mem_append.mp hq with hq1 | hq2
    · exact Or.inl ((rowMajorCells_mem _ _ _).mp hq1).2
    · obtain ⟨i, hi, rfl⟩ := List.mem_map.mp hq2
      exact Or.inr ⟨rfl, List.mem_range.mp hi⟩
  have hafter_mem : ∀ q ∈ (List.range (gridWidth g - x - 1)).map (fun t => (x + 1 + t, y)) ++
      ((List.range (gridHeight g - y - 1)).map (fun t => y + 1 + t)).flatMap
        (fun j => (List.range (gridWidth g)).map (fun i => (i, j))),
      (q.2 = y ∧ x < q.1) ∨ y < q.2 := by
    intro q hq
    rcases List.mem_append.mp hq with hq1 | hq2
    · obtain ⟨t, _, rfl⟩ := List.mem_map.mp hq1
      exact Or.inl ⟨rfl, by omega⟩
    · simp only [List.mem_flatMap, List.mem_map, List.mem_range] at hq2
      obtain ⟨j, hj, i, _, rfl⟩ := hq2
      obtain ⟨t, ht, rfl⟩ := hj
      exact Or.inr (by omega)
  have hout : BiomeRuleEngine.applyRules g =
      ((List.range (gridWidth g - x - 1)).map (fun t => (x + 1 + t, y)) ++
       ((List.range (gridHeight g - y - 1)).map (fun t => y + 1 + t)).flatMap
         (fun j => (List.range (gridWidth g)).map (fun i => (i, j)))).foldl
        applyRulesStep
        (applyRulesStep
          ((rowMajorCells (gridWidth g) y ++
            (List.range x).map (fun i => (i, y))).foldl applyRulesStep g) (x, y)) := by
    rw [hfold, List.foldl_append, List.foldl_cons]
  set B := (rowMajorCells (gridWidth g) y ++
    (List.range x).map (fun i => (i, y))).foldl applyRulesStep g with hBdef
  have hBlen : B.length = g.length := foldl_step_length _ g
  have hBrow : ∀ j, (B.getD j []).length = (g.getD j []).length :=
    fun j => foldl_step_rowLength _ g j
  have houtB : ∀ i j : ℕ, (i = x ∧ j = y) ∨ (j = y ∧ x < i) ∨ y < j →
      cellAt B i j = cellAt g i j := by
    intro i j hij
    apply foldl_step_untouched
    intro p hp
    have := hbefore_mem p hp
    omega
  have hout_untouched : ∀ i j : ℕ, j < y ∨ (j = y ∧ i < x) →
      cellAt (BiomeRuleEngine.applyRules g) i j = cellAt B i j := by
    intro i j hij
    rw [hout]
    rw [foldl_step_untouched _ _ i j (by
      intro p hp
      have := hafter_mem p hp
      omega)]
    unfold applyRulesStep
    apply cellAt_gridSet_ne
    omega
  have hstep : cellAt (BiomeRuleEngine.applyRules g) x y =
      BiomeRuleEngine.applyCellRules B x y := by
    rw [hout]
    rw [foldl_step_untouched _ _ x y (by
      intro p hp
      have := hafter_mem p hp
      omega)]
    unfold applyRulesStep
    apply cellAt_gridSet_self
    · rw [hBlen]; exact hy
    · rw [hBrow, hrow_len y hy]; exact hx
  rw [hstep]
  have hmix : mixGrid g (BiomeRuleEngine.applyRules g) x y = B := by
    unfold mixGrid
    apply List.ext_getElem
    · simp only [List.length_map, List.length_range]
      rw [hBlen]; rfl
    · intro j hj1 hj2
      have hjg : j < g.length := by rwa [hBlen] at hj2
      rw [List.getElem_map, List.getElem_range]
      apply List.ext_getElem
      · simp only [List.length_map, List.length_range]
        rw [← List.getD_eq_getElem B [] hj2, hBrow, hrow_len j hjg]
      · intro i hi1 hi2
        simp only [List.length_map, List.length_range] at hi1
        rw [List.getElem_map, List.getElem_range]
        have hcell : B[j][i] = cellAt B i j := by
          unfold cellAt
          rw [List.getD_eq_getElem B [] hj2]
          rw [List.getD_eq_getElem _ "" hi2]
        rw [hcell]
        by_cases hpred : j < y ∨ (j = y ∧ i < x)
        · rw [if_pos hpred]
          exact hout_untouched i j hpred
        · rw [if_neg hpred]
          exact (houtB i j (by omega)).symm
  rw [hmix]

/-- Witness for the C1 amended theorem at the counterexample grid and the
divergent cell `(2, 1)`. -/
theorem applyRules_reads_shared_buffer_witness :
    cellAt (BiomeRuleEngine.applyRules
        [["sand", "sand", "sand", "sand"],
         ["sand", "grass", "grass", "mountain"],
         ["sand", "sand", "grass", "mountain"]]) 2 1 =
      BiomeRuleEngine.applyCellRules
        (mixGrid
          [["sand", "sand", "sand", "sand"],
           ["sand", "grass", "grass", "mountain"],
           ["sand", "sand", "grass", "mountain"]]
          (BiomeRuleEngine.applyRules
            [["sand", "sand", "sand", "sand"],
             ["sand", "grass", "grass", "mountain"],
             ["sand", "sand", "grass", "mountain"]]) 2 1) 2 1 :=
  applyRules_reads_shared_buffer
    [["sand", "sand", "sand", "sand"],
     ["sand", "grass", "grass", "mountain"],
     ["sand", "sand", "grass", "mountain"]]
    (by decide) 2 1 (by decide) (by decide)

/-! ### C5: determinism of the full pipeline -/

/-- One full generation run (the composition exercised by
`region_generator.main`): build a `BiomeGenerator` from the seed, generate
the biome and terrain grids, then build a `RegionGenerator` from the same
seed and partition the grid. All pseudo-randomness in the sources flows
through the global PRNG, which both constructors re-seed with the given
seed; the embedding makes that explicit by deriving the draw stream from
the seed through a fixed stream family `rng`. The state of a run is
exactly (seed, width, height, num_regions, noise parameters) — there is no
other entropy source. -/
def pipelineRun (s c : ℚ → ℚ) (rng : ℕ → ℕ → ℚ) (seed width height num_regions : ℕ) :
    Except GenErr
      (List (List String) × List (List String) ×
        (List (List Int) × List (ℕ × ℕ) × List (Int × RegionInfo))) := do
  let grids ← BiomeGenerator.generate s c (BiomeGenerator.init width height seed)
  Except.ok (grids.1, grids.2,
    RegionGenerator.generateRegions (rng seed) width height num_regions grids.1)

/-- **C5**: two independent runs of the pipeline with the same seed and
the same parameters produce identical biome grids, identical terrain
grids, and identical region grids (and region records). The embedded run
is a pure function of (noise kernels, PRNG stream family, seed, width,
height, numRegions): the sources contain no entropy source other than the
seed-initialised global PRNG, which the stream family models. -/
theorem pipeline_deterministic (s c : ℚ → ℚ) (rng : ℕ → ℕ → ℚ)
    (seed1 seed2 width1 width2 height1 height2 num1 num2 : ℕ)
    (hseed : seed1 = seed2) (hw : width1 = width2) (hh : height1 = height2)
    (hn : num1 = num2) :
    pipelineRun s c rng seed1 width1 height1 num1 =
      pipelineRun s c rng seed2 width2 height2 num2 := by
  subst hseed hw hh hn
  rfl

/-- Witness for C5 at concrete parameters. -/
theorem pipeline_deterministic_witness :
    pipelineRun (fun x => x) (fun x => x) (fun _ _ => 0) 7 2 2 1 =
      pipelineRun (fun x => x) (fun x => x) (fun _ _ => 0) 7 2 2 1 :=
  pipeline_deterministic (fun x => x) (fun x => x) (fun _ _ => 0)
    7 7 2 2 2 2 1 1 rfl rfl rfl rfl

/-! ### C2: the region records are the pre-smoothing tallies -/

theorem lookup_append_some {α β : Type} [BEq α] (l1 l2 : List (α × β)) (k : α) (v : β)
    (h : l1.lookup k = some v) : (l1 ++ l2).lookup k = some v := by
  induction l1 with
  | nil => simp [List.lookup] at h
  | cons kv rest ih =>
    simp only [List.cons_append, List.lookup] at h ⊢
    cases hbeq : k == kv.1 with
    | true =>
      rw [hbeq] at h
      exact h
    | false =>
      rw [hbeq] at h
      exact ih h

theorem lookup_append_none {α β : Type} [BEq α] (l1 l2 : List (α × β)) (k : α)
    (h : l1.lookup k = none) : (l1 ++ l2).lookup k = l2.lookup k := by
  induction l1 with
  | nil => rfl
  | cons kv rest ih =>
    simp only [List.cons_append, List.lookup] at h ⊢
    cases hbeq : k == kv.1 with
    | true =>
      rw [hbeq] at h
      exact absurd h (by simp)
    | false =>
      rw [hbeq] at h
      exact ih h

theorem lookup_map_value {α β : Type} [BEq α] (g : β → β) :
    ∀ (data : List (α × β)) (k : α),
    (data.map (fun kv => (kv.1, g kv.2))).lookup k = (data.lookup k).map g := by
  intro data
  induction data with
  | nil => intro k; rfl
  | cons kv rest ih =>
    intro k
    simp only [List.map_cons, List.lookup]
    cases hbeq : k == kv.1 with
    | true => rfl
    | false => exact ih k

theorem lookup_map_update {α β : Type} [BEq α] [LawfulBEq α] [DecidableEq α]
    (k : α) (g : β → β) :
    ∀ (data : List (α × β)),
    (data.map (fun kv => if kv.1 = k then (kv.1, g kv.2) else kv)).lookup k =
      (data.lookup k).map g := by
  intro data
  induction data with
  | nil => rfl
  | cons kv rest ih =>
    simp only [List.map_cons]
    by_cases hk : kv.1 = k
    · rw [if_pos hk]
      simp only [List.lookup, show (k == kv.1) = true from by simp [hk]]
      rfl
    · rw [if_neg hk]
      simp only [List.lookup, show (k == kv.1) = false from by simp [Ne.symm hk]]
      exact ih

theorem lookup_map_update_ne {α β : Type} [BEq α] [LawfulBEq α] [DecidableEq α]
    (k j : α) (g : β → β) (hjk : j ≠ k) :
    ∀ (data : List (α × β)),
    (data.map (fun kv => if kv.1 = k then (kv.1, g kv.2) else kv)).lookup j =
      data.lookup j := by
  intro data
  induction data with
  | nil => rfl
  | cons kv rest ih =>
    simp only [List.map_cons]
    by_cases hk : kv.1 = k
    · rw [if_pos hk]
      simp only [List.lookup, show (j == kv.1) = false from by simp [hk, hjk]]
      exact ih
    · rw [if_neg hk]
      simp only [List.lookup]
      cases hbeq : j == kv.1 with
      | true => rfl
      | false => exact ih

/-- The count a `Counter` model reports for a key. -/
def counterCount (cnt : List (String × ℕ)) (b : String) : ℕ :=
  (cnt.lookup b).getD 0

theorem counterCount_counterAdd (cnt : List (String × ℕ)) (k b : String) :
    counterCount (counterAdd cnt k) b =
      counterCount cnt b + (if k = b then 1 else 0) := by
  unfold counterCount counterAdd
  by_cases hsome : (cnt.lookup k).isSome
  · rw [if_pos hsome]
    by_cases hb : b = k
    · subst hb
      rw [lookup_map_update b (fun v => v + 1) cnt]
      obtain ⟨v, hv⟩ := Option.isSome_iff_exists.mp hsome
      simp [hv]
    · rw [lookup_map_update_ne k b (fun v => v + 1) hb cnt]
      simp [Ne.symm hb]
  · rw [if_neg hsome]
    have hnone : cnt.lookup k = none := Option.not_isSome_iff_eq_none.mp hsome
    by_cases hb : b = k
    · subst hb
      rw [lookup_append_none _ _ _ hnone]
      simp [List.lookup, hnone]
    · by_cases hbs : (cnt.lookup b).isSome
      · obtain ⟨v, hv⟩ := Option.isSome_iff_exists.mp hbs
        rw [lookup_append_some _ _ _ _ hv]
        simp [hv, Ne.symm hb]
      · have hbn : cnt.lookup b = none := Option.not_isSome_iff_eq_none.mp hbs
        rw [lookup_append_none _ _ _ hbn]
        simp [List.lookup, hbn, show (b == k) = false from by simp [hb], Ne.symm hb]

theorem counterCount_foldl (bm : List (List String)) (b : String) :
    ∀ (ps : List (ℕ × ℕ)) (cnt : List (String × ℕ)),
    counterCount (ps.foldl (fun c p => counterAdd c (bmAt bm p.1 p.2)) cnt) b =
      counterCount cnt b + (ps.map (fun p => bmAt bm p.1 p.2)).count b := by
  intro ps
  induction ps with
  | nil => intro cnt; simp
  | cons p rest ih =>
    intro cnt
    rw [List.foldl_cons, ih, counterCount_counterAdd]
    simp only [List.map_cons, List.count_cons]
    by_cases hfb : bmAt bm p.1 p.2 = b
    · simp [hfb]
      omega
    · simp [hfb]

theorem lookup_enumFrom_init :
    ∀ (seeds : List (ℕ × ℕ)) (n i : ℕ), i < seeds.length →
    ((seeds.enumFrom n).map (fun ip =>
        ((ip.1 : Int), (⟨(ip.1 : Int), ip.2, 0, [], [], none, ip.2⟩ : RegionInfo)))).lookup
      ((n + i : ℕ) : Int) =
      some ⟨((n + i : ℕ) : Int), seeds.getD i (0, 0), 0, [], [], none,
        seeds.getD i (0, 0)⟩ := by
  intro seeds
  induction seeds with
  | nil => intro n i hi; simp at hi
  | cons s rest ih =>
    intro n i hi
    cases i with
    | zero =>
      simp only [List.enumFrom, List.map_cons, List.lookup, Nat.add_zero,
        List.getD_cons_zero]
      rw [show (((n : ℕ) : Int) == ((n : ℕ) : Int)) = true from by simp]
    | succ i2 =>
      simp only [List.enumFrom, List.map_cons, List.lookup, List.getD_cons_succ]
      rw [show ((((n + (i2 + 1) : ℕ)) : Int) == ((n : ℕ) : Int)) = false from by
        simp
        omega]
      have harith : (n + (i2 + 1) : ℕ) = ((n + 1) + i2 : ℕ) := by omega
      rw [harith]
      exact ih (n + 1) i2 (by simpa using hi)

theorem lookup_initRegionData (seeds : List (ℕ × ℕ)) (i : ℕ) (hi : i < seeds.length) :
    (initRegionData seeds).lookup (i : Int) =
      some ⟨(i : Int), seeds.getD i (0, 0), 0, [], [], none, seeds.getD i (0, 0)⟩ := by
  unfold initRegionData
  have h := lookup_enumFrom_init seeds 0 i hi
  simpa using h

theorem assign_fold_lookup (bm : List (List String)) (seeds : List (ℕ × ℕ)) (i : Int) :
    ∀ (cs : List (ℕ × ℕ)) (data : List (Int × RegionInfo)) (r : RegionInfo),
    data.lookup i = some r →
    (cs.foldl (assignCellUpdate bm seeds) data).lookup i =
      some { r with
        area := r.area + (cs.filter (fun p => nearestRegion seeds p.1 p.2 == i)).length,
        tiles := r.tiles ++ cs.filter (fun p => nearestRegion seeds p.1 p.2 == i),
        biomeCounts := (cs.filter (fun p => nearestRegion seeds p.1 p.2 == i)).foldl
          (fun cnt p => counterAdd cnt (bmAt bm p.1 p.2)) r.biomeCounts } := by
  intro cs
  induction cs with
  | nil =>
    intro data r h
    simpa using h
  | cons c rest ih =>
    intro data r h
    rw [List.foldl_cons]
    by_cases hk : nearestRegion seeds c.1 c.2 = i
    · have hstep : (assignCellUpdate bm seeds data c).lookup i =
          some { r with
                  area := r.area + 1
                  tiles := r.tiles ++ [c]
                  biomeCounts := counterAdd r.biomeCounts (bmAt bm c.1 c.2) } := by
        unfold assignCellUpdate dataUpdate
        rw [hk, if_pos (by simp [h]),
          lookup_map_update i (fun q => { q with area := q.area + 1, tiles := q.tiles ++ [c], biomeCounts := counterAdd q.biomeCounts (bmAt bm c.1 c.2) }) data, h]
        rfl
      rw [ih _ _ hstep]
      have hfil : (c :: rest).filter (fun p => nearestRegion seeds p.1 p.2 == i) =
          c :: rest.filter (fun p => nearestRegion seeds p.1 p.2 == i) := by
        simp [List.filter_cons, hk]
      rw [hfil]
      cases r with
      | mk rid seedPos area tiles biomeCounts dominantBiome centroid =>
        simp only [List.foldl_cons, List.length_cons, List.append_assoc,
          List.singleton_append, Option.some.injEq, RegionInfo.mk.injEq,
          true_and, and_true]
        omega
    · have hstep : (assignCellUpdate bm seeds data c).lookup i = some r := by
        unfold assignCellUpdate dataUpdate
        by_cases hpres : (data.lookup (nearestRegion seeds c.1 c.2)).isSome
        · rw [if_pos hpres]
          rw [lookup_map_update_ne (nearestRegion seeds c.1 c.2) i (fun q => { q with area := q.area + 1, tiles := q.tiles ++ [c], biomeCounts := counterAdd q.biomeCounts (bmAt bm c.1 c.2) }) (fun hc => hk hc.symm) data]
          exact h
        · rw [if_neg hpres]
          exact lookup_append_some _ _ _ _ h
      rw [ih _ _ hstep]
      have hfil : (c :: rest).filter (fun p => nearestRegion seeds p.1 p.2 == i) =
          rest.filter (fun p => nearestRegion seeds p.1 p.2 == i) := by
        simp [List.filter_cons, hk]
      rw [hfil]

theorem finalizeRegionInfo_fields (r : RegionInfo) :
    (finalizeRegionInfo r).tiles = r.tiles ∧
    (finalizeRegionInfo r).area = r.area ∧
    (finalizeRegionInfo r).biomeCounts = r.biomeCounts ∧
    (finalizeRegionInfo r).dominantBiome =
      (if r.biomeCounts.isEmpty then r.dominantBiome
       else some (counterMostCommon r.biomeCounts)) ∧
    (finalizeRegionInfo r).centroid =
      (if r.tiles.isEmpty then r.centroid
       else ((r.tiles.map Prod.fst).sum / r.area, (r.tiles.map Prod.snd).sum / r.area)) := by
  unfold finalizeRegionInfo
  by_cases h1 : r.biomeCounts.isEmpty <;> by_cases h2 : r.tiles.isEmpty <;>
    simp [h1, h2]

/-- **C2 amended**: the Region records returned by `generate_regions` are
the Step-B tallies, computed from the PRE-smoothing assignment grid and
never recomputed after smoothing: for every region id `i` (with `i` below
the number of placed seeds), the returned record's member list is exactly
the row-major list of cells whose id in the pre-smoothing assignment grid
is `i`, its area is that list's length, its biome counts count those same
cells, and its dominant biome and centroid are derived from those same
counts and members (centroid falling back to the seed coordinate when the
member list is empty). -/
theorem generateRegions_records_pre_smoothing (stream : ℕ → ℚ)
    (width height num_regions : ℕ) (bm : List (List String)) (i : ℕ)
    (hi : i < (RegionGenerator.generateSeedPoints stream width height num_regions bm).length) :
    ∃ r : RegionInfo,
      (RegionGenerator.generateRegions stream width height num_regions bm).2.2.lookup
        (i : Int) = some r ∧
      r.tiles = (rowMajorCells width height).filter (fun p =>
        (((RegionGenerator.assignTilesToRegions width height
            (RegionGenerator.generateSeedPoints stream width height num_regions bm)
            bm).1.getD p.2 []).getD p.1 (-1)) == (i : Int)) ∧
      r.area = r.tiles.length ∧
      (∀ b, counterCount r.biomeCounts b =
        (r.tiles.map (fun p => bmAt bm p.1 p.2)).count b) ∧
      r.dominantBiome = (if r.biomeCounts.isEmpty then none
        else some (counterMostCommon r.biomeCounts)) ∧
      r.centroid = (if r.tiles.isEmpty then
          (RegionGenerator.generateSeedPoints stream width height num_regions bm).getD
            i (0, 0)
        else ((r.tiles.map Prod.fst).sum / r.area, (r.tiles.map Prod.snd).sum / r.area)) := by
  set seeds := RegionGenerator.generateSeedPoints stream width height num_regions bm
    with hseeds
  set F := (rowMajorCells width height).filter
    (fun p => nearestRegion seeds p.1 p.2 == (i : Int)) with hF
  have hinit := lookup_initRegionData seeds i hi
  have hfold := assign_fold_lookup bm seeds (i : Int) (rowMajorCells width height)
    (initRegionData seeds) _ hinit
  have hfold2 : ((rowMajorCells width height).foldl (assignCellUpdate bm seeds)
      (initRegionData seeds)).lookup (i : Int) =
      some ⟨(i : Int), seeds.getD i (0, 0), 0 + F.length, [] ++ F,
        F.foldl (fun cnt p => counterAdd cnt (bmAt bm p.1 p.2)) [], none,
        seeds.getD i (0, 0)⟩ := hfold
  have hdata : (RegionGenerator.generateRegions stream width height num_regions bm).2.2 =
      ((rowMajorCells width height).foldl (assignCellUpdate bm seeds)
        (initRegionData seeds)).map (fun kv => (kv.1, finalizeRegionInfo kv.2)) := rfl
  have hfiltereq : F = (rowMajorCells width height).filter (fun p =>
      (((RegionGenerator.assignTilesToRegions width height seeds bm).1.getD p.2 []).getD
        p.1 (-1)) == (i : Int)) := by
    rw [hF]
    apply List.filter_congr
    intro p hp
    obtain ⟨hpx, hpy⟩ := (rowMajorCells_mem width height p).mp hp
    have := gridBuild_at width height (fun a b => nearestRegion seeds a b) p.1 p.2
      hpx hpy (-1) []
    unfold RegionGenerator.assignTilesToRegions
    rw [this]
  refine ⟨finalizeRegionInfo ⟨(i : Int), seeds.getD i (0, 0), 0 + F.length, [] ++ F,
    F.foldl (fun cnt p => counterAdd cnt (bmAt bm p.1 p.2)) [], none,
    seeds.getD i (0, 0)⟩, ?_, ?_, ?_, ?_, ?_, ?_⟩
  · rw [hdata, lookup_map_value finalizeRegionInfo _ (i : Int), hfold2]
    rfl
  · obtain ⟨hT, _, _, _, _⟩ := finalizeRegionInfo_fields
      ⟨(i : Int), seeds.getD i (0, 0), 0 + F.length, [] ++ F,
        F.foldl (fun cnt p => counterAdd cnt (bmAt bm p.1 p.2)) [], none,
        seeds.getD i (0, 0)⟩
    rw [hT, ← hfiltereq]
    simp
  · obtain ⟨hT, hA, _, _, _⟩ := finalizeRegionInfo_fields
      ⟨(i : Int), seeds.getD i (0, 0), 0 + F.length, [] ++ F,
        F.foldl (fun cnt p => counterAdd cnt (bmAt bm p.1 p.2)) [], none,
        seeds.getD i (0, 0)⟩
    rw [hT, hA]
    simp
  · intro b
    obtain ⟨hT, _, hC, _, _⟩ := finalizeRegionInfo_fields
      ⟨(i : Int), seeds.getD i (0, 0), 0 + F.length, [] ++ F,
        F.foldl (fun cnt p => counterAdd cnt (bmAt bm p.1 p.2)) [], none,
        seeds.getD i (0, 0)⟩
    rw [hT, hC]
    simp only [List.nil_append]
    rw [counterCount_foldl bm b F []]
    simp [counterCount, List.lookup]
  · obtain ⟨_, _, hC, hD, _⟩ := finalizeRegionInfo_fields
      ⟨(i : Int), seeds.getD i (0, 0), 0 + F.length, [] ++ F,
        F.foldl (fun cnt p => counterAdd cnt (bmAt bm p.1 p.2)) [], none,
        seeds.getD i (0, 0)⟩
    rw [hD, hC]
  · obtain ⟨hT, hA, _, _, hCen⟩ := finalizeRegionInfo_fields
      ⟨(i : Int), seeds.getD i (0, 0), 0 + F.length, [] ++ F,
        F.foldl (fun cnt p => counterAdd cnt (bmAt bm p.1 p.2)) [], none,
        seeds.getD i (0, 0)⟩
    rw [hCen, hT, hA]

theorem insertByWeightDesc_equal (w : ℚ) (p : ℕ × ℕ × ℚ) (hp : p.2.2 = w) :
    ∀ (l : List (ℕ × ℕ × ℚ)), (∀ q ∈ l, q.2.2 = w) →
    insertByWeightDesc p l = l ++ [p] := by
  intro l
  induction l with
  | nil => intro _; rfl
  | cons q rest ih =>
    intro hall
    unfold insertByWeightDesc
    rw [if_neg (by
      rw [hp, hall q (by simp)]
      exact lt_irrefl w)]
    rw [ih (fun q2 hq2 => hall q2 (by simp [hq2]))]
    rfl

theorem sortByWeightDesc_all_equal (w : ℚ) :
    ∀ (l acc : List (ℕ × ℕ × ℚ)), (∀ q ∈ l, q.2.2 = w) → (∀ q ∈ acc, q.2.2 = w) →
    l.foldl (fun a p => insertByWeightDesc p a) acc = acc ++ l := by
  intro l
  induction l with
  | nil => intro acc _ _; simp
  | cons p rest ih =>
    intro acc hl hacc
    rw [List.foldl_cons,
      insertByWeightDesc_equal w p (hl p (by simp)) acc hacc,
      ih (acc ++ [p]) (fun q hq => hl q (by simp [hq])) (by
        intro q hq
        rcases List.mem_append.mp hq with h1 | h2
        · exact hacc q h1
        · simp at h2
          rw [h2]
          exact hl p (by simp))]
    simp

theorem scanSelect_head (p : ℕ × ℕ × ℚ) (rest : List (ℕ × ℕ × ℚ)) (r : ℚ)
    (h : 0 + p.2.2 ≥ r) : scanSelect (p :: rest) 0 r = some (p.1, p.2.1) := by
  show (if 0 + p.2.2 ≥ r then some (p.1, p.2.1) else scanSelect rest (0 + p.2.2) r) =
    some (p.1, p.2.1)
  rw [if_pos h]

theorem seedLoop_succ (stream : ℕ → ℚ) (minDist num fuel attempts : ℕ)
    (seeds : List (ℕ × ℕ)) (pool : List (ℕ × ℕ × ℚ)) :
    seedLoop stream minDist num (fuel + 1) attempts seeds pool =
      if seeds.length < num then
        seedLoop stream minDist num fuel (attempts + 1)
          (seedIteration minDist seeds pool (stream attempts)).1
          (seedIteration minDist seeds pool (stream attempts)).2
      else seeds := rfl

/-- A 3×3 all-grassland biome map (test fixture for the C2
counterexample run). -/
def grassland3x3 : List (List String) :=
  [["grassland", "grassland", "grassland"],
   ["grassland", "grassland", "grassland"],
   ["grassland", "grassland", "grassland"]]

/-- The concrete seed-selection run behind the C2 counterexample: with
every draw equal to 0 (a value `random.uniform(0, total)` can return), the
weighted scan always accepts the first eligible position, giving seeds
`(0,0)` then `(1,0)` (minimum separation `d = isqrt(9/4) = 1`). -/
theorem concrete_seeds :
    RegionGenerator.generateSeedPoints (fun _ => 0) 3 3 2 grassland3x3 =
      [(0, 0), (1, 0)] := by
  set G := RegionGenerator.getBiomeWeight "grassland" with hG
  have hGe : (0 : ℚ) + G ≥ 0 := by
    rw [hG]
    norm_num [RegionGenerator.getBiomeWeight, RegionGenerator.biomeWeights, List.lookup,
      show ("grassland" == "ocean") = false from by decide,
      show ("grassland" == "swamp") = false from by decide,
      show ("grassland" == "desert") = false from by decide,
      show ("grassland" == "grassland") = true from by decide]
  have hP0 : RegionGenerator.validPositions 3 3 grassland3x3 =
      [(0,0,G),(1,0,G),(2,0,G),(0,1,G),(1,1,G),(2,1,G),(0,2,G),(1,2,G),(2,2,G)] := by
    rw [hG]
    rfl
  have hmin : Nat.sqrt (3 * 3 / (2 * 2)) = 1 := by
    have h1 : (1 : ℕ) ≤ Nat.sqrt 2 := Nat.le_sqrt.mpr (by norm_num)
    have h2 : Nat.sqrt 2 < 2 := Nat.sqrt_lt.mpr (by norm_num)
    have h3 : (3 * 3 / (2 * 2) : ℕ) = 2 := rfl
    rw [h3]
    omega
  have hsort : sortByWeightDesc
      [(0,0,G),(1,0,G),(2,0,G),(0,1,G),(1,1,G),(2,1,G),(0,2,G),(1,2,G),(2,2,G)] =
      [(0,0,G),(1,0,G),(2,0,G),(0,1,G),(1,1,G),(2,1,G),(0,2,G),(1,2,G),(2,2,G)] := by
    unfold sortByWeightDesc
    rw [sortByWeightDesc_all_equal G _ []
      (by intro q hq; fin_cases hq <;> rfl) (by simp)]
    simp
  have hscan1 : scanSelect
      [(0,0,G),(1,0,G),(2,0,G),(0,1,G),(1,1,G),(2,1,G),(0,2,G),(1,2,G),(2,2,G)] 0 0 =
      some (0, 0) :=
    scanSelect_head (0, 0, G) _ 0 hGe
  have hiter1 : seedIteration 1 []
      [(0,0,G),(1,0,G),(2,0,G),(0,1,G),(1,1,G),(2,1,G),(0,2,G),(1,2,G),(2,2,G)] 0 =
      ([(0, 0)], [(1,0,G),(2,0,G),(0,1,G),(1,1,G),(2,1,G),(0,2,G),(1,2,G),(2,2,G)]) := by
    unfold seedIteration
    rw [hscan1]
    rfl
  have hscan2 : scanSelect
      [(1,0,G),(2,0,G),(0,1,G),(1,1,G),(2,1,G),(0,2,G),(1,2,G),(2,2,G)] 0 0 =
      some (1, 0) :=
    scanSelect_head (1, 0, G) _ 0 hGe
  have hiter2 : seedIteration 1 [(0, 0)]
      [(1,0,G),(2,0,G),(0,1,G),(1,1,G),(2,1,G),(0,2,G),(1,2,G),(2,2,G)] 0 =
      ([(0, 0), (1, 0)],
        ([(1,0,G),(2,0,G),(0,1,G),(1,1,G),(2,1,G),(0,2,G),(1,2,G),(2,2,G)] :
          List (ℕ × ℕ × ℚ)).filter
          (fun p => decide (manhattan (p.1, p.2.1) (1, 0) ≥ 1))) := by
    unfold seedIteration
    rw [hscan2]
    rfl
  unfold RegionGenerator.generateSeedPoints
  rw [hmin, hP0, hsort]
  rw [show (2 * 100 : ℕ) = 199 + 1 from rfl, seedLoop_succ]
  rw [if_pos (by decide)]
  try dsimp only
  rw [hiter1]
  rw [show (199 : ℕ) = 198 + 1 from rfl, seedLoop_succ]
  rw [if_pos (by decide)]
  try dsimp only
  rw [hiter2]
  exact seedLoop_stops_when_full (fun _ => 0) 1 2 198 2 [(0, 0), (1, 0)] _ (by decide)

/-- The fully evaluated counterexample run: seeds `(0,0)` and `(1,0)` on
the 3×3 all-grassland map. The pre-smoothing assignment is the column
split `[[0,1,1],[0,1,1],[0,1,1]]`; two majority-vote smoothing passes
erase region 0 entirely, but the returned records still carry region 0's
pre-smoothing tallies. -/
theorem concrete_generateRegions :
    RegionGenerator.generateRegions (fun _ => 0) 3 3 2 grassland3x3 =
      ([[1, 1, 1], [1, 1, 1], [1, 1, 1]],
       [(0, 0), (1, 0)],
       [((0 : Int), ⟨0, (0, 0), 3, [(0, 0), (0, 1), (0, 2)], [("grassland", 3)],
          some "grassland", (0, 1)⟩),
        ((1 : Int), ⟨1, (1, 0), 6, [(1, 0), (2, 0), (1, 1), (2, 1), (1, 2), (2, 2)],
          [("grassland", 6)], some "grassland", (1, 1)⟩)]) := by
  unfold RegionGenerator.generateRegions
  rw [concrete_seeds]
  rfl

/-- **C2 counterexample**: in the run with all draws 0 on the 3×3
all-grassland map with `num_regions = 2`, the returned (smoothed) region
grid is all 1s — no cell has id 0 — yet region 0's returned record still
reports the non-empty pre-smoothing member set
`[(0,0), (0,1), (0,2)]` (area 3). The records are NOT recomputed from the
post-smoothing grid, contradicting the claim. -/
theorem generateRegions_not_post_smoothing_counterexample :
    ((RegionGenerator.generateRegions (fun _ => 0) 3 3 2 grassland3x3).2.2.lookup
      (0 : Int)).map RegionInfo.tiles = some [(0, 0), (0, 1), (0, 2)] ∧
    (rowMajorCells 3 3).filter (fun p =>
      (((RegionGenerator.generateRegions (fun _ => 0) 3 3 2 grassland3x3).1.getD
        p.2 []).getD p.1 (-1)) == (0 : Int)) = [] ∧
    ([(0, 0), (0, 1), (0, 2)] : List (ℕ × ℕ)) ≠ [] := by
  rw [concrete_generateRegions]
  refine ⟨rfl, by decide, by decide⟩

/-- Witness for the C2 amended theorem at the counterexample run
(`i = 0`). -/
theorem generateRegions_records_pre_smoothing_witness :
    ∃ r : RegionInfo,
      (RegionGenerator.generateRegions (fun _ => 0) 3 3 2 grassland3x3).2.2.lookup
        ((0 : ℕ) : Int) = some r ∧
      r.tiles = (rowMajorCells 3 3).filter (fun p =>
        (((RegionGenerator.assignTilesToRegions 3 3
            (RegionGenerator.generateSeedPoints (fun _ => 0) 3 3 2 grassland3x3)
            grassland3x3).1.getD p.2 []).getD p.1 (-1)) == ((0 : ℕ) : Int)) ∧
      r.area = r.tiles.length ∧
      (∀ b, counterCount r.biomeCounts b =
        (r.tiles.map (fun p => bmAt grassland3x3 p.1 p.2)).count b) ∧
      r.dominantBiome = (if r.biomeCounts.isEmpty then none
        else some (counterMostCommon r.biomeCounts)) ∧
      r.centroid = (if r.tiles.isEmpty then
          (RegionGenerator.generateSeedPoints (fun _ => 0) 3 3 2 grassland3x3).getD
            0 (0, 0)
        else ((r.tiles.map Prod.fst).sum / r.area, (r.tiles.map Prod.snd).sum / r.area)) :=
  generateRegions_records_pre_smoothing (fun _ => 0) 3 3 2 grassland3x3 0
    (by rw [concrete_seeds]; decide)
